import Mathlib

/-!
# Geofence membership classifier (`bound.go`)

A shallow embedding of `bound.go`: the great-circle distance `haversineDistance`
and the classification loop of `main`.

Modelling conventions.

* The distance engine has two readings.  In the real reading
  (`haversineTerm`, `haversineDistance`) `float64` arithmetic is exact
  arithmetic over `ℝ`; `math.Pi`, `math.Sin`, `math.Cos`, `math.Sqrt` are
  `Real.pi`, `Real.sin`, `Real.cos`, `Real.sqrt`, and `math.Atan2` is `atan2`.
  It has no rounding, no infinities and no NaN, and is used where these do not
  change the answer: the classification loop, symmetry and the two fixtures.
  In the binary64 reading (`haversineTerm64`, `haversineDistance64`) every
  `float64` is an IEEE 754 binary64 datum `F64` and every operation is rounded
  to nearest, ties to even, one operation at a time (no fused multiply-add,
  as Go compiles for amd64); `math.Sin` and `math.Cos` are the routines of
  the `math` package of Go.  It is used to evaluate the code at concrete
  inputs, where rounding decides the answer.
* BSON documents (`bson.M`) are association lists of dynamically typed values;
  a Go type assertion is a projection that may fail.
* `log.Fatal`/`log.Fatalf` and a failed single-valued type assertion end the
  process; a run therefore returns `Except Abort _`.
* `fmt.Printf` output is kept as the list of per-record reports.
* The counters are Go `int` (64 bit); they are incremented once per cursor
  record, so they are modelled as natural numbers.
-/

namespace Bound

/-! ## The distance engine -/

/-- The function `math.Atan2(y, x)` on real arguments, following the case
analysis of the library routine: `y = 0`, then `x = 0`, then the quadrant
correction of `Atan(y / x)`. -/
noncomputable def atan2 (y x : ℝ) : ℝ :=
  if y = 0 then (if 0 ≤ x then 0 else Real.pi)
  else if x = 0 then (if 0 < y then Real.pi / 2 else -(Real.pi / 2))
  else
    let q := Real.arctan (y / x)
    if x < 0 then (if q ≤ 0 then q + Real.pi else q - Real.pi) else q

/-- The local `a` of `haversineDistance` (lines 18-28) in the real reading: the
haversine of the central angle between the two points, from degrees. -/
noncomputable def haversineTerm (lat1 lon1 lat2 lon2 : ℝ) : ℝ :=
  let lat1Rad := lat1 * (Real.pi / 180)
  let lon1Rad := lon1 * (Real.pi / 180)
  let lat2Rad := lat2 * (Real.pi / 180)
  let lon2Rad := lon2 * (Real.pi / 180)
  let deltaLat := lat2Rad - lat1Rad
  let deltaLon := lon2Rad - lon1Rad
  Real.sin (deltaLat / 2) * Real.sin (deltaLat / 2) +
    Real.cos lat1Rad * Real.cos lat2Rad *
      Real.sin (deltaLon / 2) * Real.sin (deltaLon / 2)

/-- The function `haversineDistance` (lines 16-32) in the real reading:
distance in meters on a sphere of radius `R = 6371000`. -/
noncomputable def haversineDistance (lat1 lon1 lat2 lon2 : ℝ) : ℝ :=
  let R : ℝ := 6371000
  let a := haversineTerm lat1 lon1 lat2 lon2
  let c := 2 * atan2 (Real.sqrt a) (Real.sqrt (1 - a))
  R * c

/-! ## Documents -/

/-- A dynamically typed BSON value as it appears behind `interface{}`. -/
inductive Value where
  | null
  | int32 (n : Int)
  | int64 (n : Int)
  | double (x : ℝ)
  | str (s : String)
  | objectID (hex : String)
  | document (fields : List (String × Value))

/-- The type `bson.M`. -/
abbrev M := List (String × Value)

/-- Map indexing `m[key]`; an absent key gives the nil interface. -/
def index (m : M) (key : String) : Value :=
  match m.lookup key with
  | some v => v
  | none => Value.null

/-- The assertion `v.(float64)`. -/
def asFloat64 : Value → Option ℝ
  | Value.double x => some x
  | _ => none

/-- The assertion `v.(int32)`. -/
def asInt32 : Value → Option Int
  | Value.int32 n => some n
  | _ => none

/-- The assertion `v.(int64)`. -/
def asInt64 : Value → Option Int
  | Value.int64 n => some n
  | _ => none

/-- The assertion `v.(string)`. -/
def asString : Value → Option String
  | Value.str s => some s
  | _ => none

/-- The assertion `v.(bson.M)`. -/
def asDocument : Value → Option M
  | Value.document d => some d
  | _ => none

/-! ## The classification loop of `main` -/

/-- How a run ends early: `log.Fatal`/`log.Fatalf`, or the run-time panic of a
single-valued type assertion. -/
inductive Abort where
  | fatal
  | panic
  deriving DecidableEq

/-- The two messages of lines 162 and 165. -/
inductive Classification where
  | inbound
  | outbound
  deriving DecidableEq

/-- What is printed for one processed record: the distance of line 158 and the
message of line 162 or 165. -/
structure Report where
  distance : ℝ
  classification : Classification

/-- The variables that the loop updates, with everything printed so far. -/
structure RunState where
  inboundCount : Nat
  outboundCount : Nat
  printed : List Report

/-- The hard-coded IMEI of line 40. -/
def imei : Int := 350317173261953

/-- One iteration of the loop of lines 133-168.  `item` is what the cursor
yields: `none` when `Decode` fails. -/
noncomputable def loopBody (vehicle zone : M) (zoneLat zoneLon : ℝ) (radius : Int)
    (st : RunState) (item : Option M) : Except Abort RunState :=
  match item with
  | none => Except.error Abort.fatal
  | some telematics =>
    match asInt64 (index telematics "imei") with
    | none => Except.error Abort.panic
    | some v =>
      if v ≠ imei then Except.ok st
      else
        match asDocument (index telematics "gps") with
        | none => Except.error Abort.panic
        | some gps =>
          match asFloat64 (index gps "latitude") with
          | none => Except.error Abort.fatal
          | some gpsLat =>
            match asFloat64 (index gps "longitude") with
            | none => Except.error Abort.fatal
            | some gpsLon =>
              let distance := haversineDistance gpsLat gpsLon zoneLat zoneLon
              if distance < (radius : ℝ) then
                match asString (index vehicle "registrationNumber"),
                    asString (index zone "name") with
                | some _, some _ =>
                  Except.ok { inboundCount := st.inboundCount + 1,
                              outboundCount := st.outboundCount,
                              printed := st.printed ++ [⟨distance, Classification.inbound⟩] }
                | _, _ => Except.error Abort.panic
              else
                match asString (index vehicle "registrationNumber"),
                    asString (index zone "name") with
                | some _, some _ =>
                  Except.ok { inboundCount := st.inboundCount,
                              outboundCount := st.outboundCount + 1,
                              printed := st.printed ++ [⟨distance, Classification.outbound⟩] }
                | _, _ => Except.error Abort.panic

/-- The loop of lines 133-168 over the records the cursor yields. -/
noncomputable def loop (vehicle zone : M) (zoneLat zoneLon : ℝ) (radius : Int) :
    RunState → List (Option M) → Except Abort RunState
  | st, [] => Except.ok st
  | st, item :: rest =>
    match loopBody vehicle zone zoneLat zoneLon radius st item with
    | Except.error e => Except.error e
    | Except.ok st1 => loop vehicle zone zoneLat zoneLon radius st1 rest

/-- Lines 115-172 of `main`, for the vehicle and zone documents found by the
lookups of lines 90-113 and the records of the telematics cursor: the zone
fields are extracted, the counters start at zero, the loop runs, and the final
state holds the two counts that are printed. -/
noncomputable def main (vehicle zone : M) (cursor : List (Option M)) : Except Abort RunState :=
  match asFloat64 (index zone "latitude") with
  | none => Except.error Abort.fatal
  | some zoneLat =>
    match asFloat64 (index zone "longitude") with
    | none => Except.error Abort.fatal
    | some zoneLon =>
      match asInt32 (index zone "radius") with
      | none => Except.error Abort.fatal
      | some radius =>
        loop vehicle zone zoneLat zoneLon radius
          { inboundCount := 0, outboundCount := 0, printed := [] } cursor

/-! ## Vocabulary for stating properties of a run -/

/-- Whether the cursor item is a record of the tracked entity: it decoded and
its `imei` field is the `int64` value of line 40.  These are the records that
pass the `continue` of line 141. -/
def tracked (item : Option M) : Bool :=
  match item with
  | none => false
  | some telematics =>
    match asInt64 (index telematics "imei") with
    | none => false
    | some v => decide (v = imei)

/-- Whether the zone document has the three fields that lines 115-126 extract,
with the asserted types. -/
def zoneFields (zone : M) : Bool :=
  (asFloat64 (index zone "latitude")).isSome &&
    (asFloat64 (index zone "longitude")).isSome &&
    (asInt32 (index zone "radius")).isSome

/-- Whether the two strings that the messages of lines 162 and 165 print are
present. -/
def labels (vehicle zone : M) : Bool :=
  (asString (index vehicle "registrationNumber")).isSome &&
    (asString (index zone "name")).isSome

/-- Whether the loop body gets through the field extraction of lines 134-153
on this cursor item: it decoded, `imei` is an `int64`, and, when the record is
of the tracked entity, `gps` is a document with `float64` coordinates. -/
def recordOk (item : Option M) : Bool :=
  match item with
  | none => false
  | some telematics =>
    match asInt64 (index telematics "imei") with
    | none => false
    | some v =>
      if v ≠ imei then true
      else
        match asDocument (index telematics "gps") with
        | none => false
        | some gps =>
          (asFloat64 (index gps "latitude")).isSome &&
            (asFloat64 (index gps "longitude")).isSome

/-- The number of printed reports with the given classification. -/
def countOf (c : Classification) (printed : List Report) : Nat :=
  (printed.filter (fun r => decide (r.classification = c))).length

/-- The state with which the loop starts (lines 129-130). -/
def initial : RunState :=
  { inboundCount := 0, outboundCount := 0, printed := [] }

/-- The state `st` advanced by the increments recorded in `d`. -/
def advance (st d : RunState) : RunState :=
  { inboundCount := st.inboundCount + d.inboundCount,
    outboundCount := st.outboundCount + d.outboundCount,
    printed := st.printed ++ d.printed }

/-! ## Example documents -/

/-- A vehicle document of the `Vehicledata` collection. -/
def sampleVehicle : M :=
  [("imei", Value.int64 imei), ("registrationNumber", Value.str "KA01AB1234")]

/-- A zone document of the `zone` collection, centred at (0, 0). -/
noncomputable def sampleZone (radius : Int) : M :=
  [("name", Value.str "Depot"), ("latitude", Value.double 0),
    ("longitude", Value.double 0), ("radius", Value.int32 radius)]

/-- A telematics record of the `teledata` collection. -/
def sampleRecord (entity : Int) (lat lon : ℝ) : M :=
  [("imei", Value.int64 entity),
    ("gps", Value.document [("latitude", Value.double lat), ("longitude", Value.double lon)])]

/-- The longitude, in degrees, of the point of the equator that is 100 m east
of (0, 0). -/
noncomputable def hundredMetresEast : ℝ := 18000 / (6371000 * Real.pi)

/-! ## The distance engine, binary64 reading -/

/-- An IEEE 754 binary64 datum.  `fin neg m e` is the number
`(-1)^neg * m * 2^(e - 1074)`; the results of the operations below are in
canonical form: `m < 2^53`, `e ≤ 2045`, and `2^52 ≤ m` unless `e = 0` (zero
and the subnormal numbers).  NaN payloads are not distinguished. -/
inductive F64 where
  | nan
  | inf (neg : Bool)
  | fin (neg : Bool) (m e : Nat)
  deriving DecidableEq

/-- Binary search for the position of the leading bit of `n`, below 8192. -/
def F64.ilog2Aux (n : Nat) : Nat → Nat → Nat
  | 0, acc => acc
  | k + 1, acc => F64.ilog2Aux n k (if 2 ^ (acc + 2 ^ k) ≤ n then acc + 2 ^ k else acc)

/-- The position of the leading bit of `n`: `2^(ilog2 n) ≤ n < 2^(ilog2 n + 1)`
for `0 < n < 2^8192`. -/
def F64.ilog2 (n : Nat) : Nat := F64.ilog2Aux n 13 0

/-- Rounding to nearest, ties to even: the binary64 datum nearest to the
rational `n / d` counted in units of `2^-1074`, with the sign `neg`.  The
exponent `E` is chosen so that the quotient `q` has 53 bits (or `E = 0`), the
remainder decides the rounding, and a result beyond the largest finite number
is an infinity. -/
def F64.roundQ (neg : Bool) (n d : Nat) : F64 :=
  if n = 0 then F64.fin neg 0 0
  else
    let E0 := F64.ilog2 n - (F64.ilog2 d + 53)
    let E := if 2 ^ 53 ≤ n / (d * 2 ^ E0) then E0 + 1 else E0
    let D := d * 2 ^ E
    let q := n / D
    let r := n % D
    let q1 := if D < 2 * r ∨ (2 * r = D ∧ q % 2 = 1) then q + 1 else q
    if 2 ^ 53 ≤ q1 then (if 2045 < E + 1 then F64.inf neg else F64.fin neg (2 ^ 52) (E + 1))
    else if 2045 < E then F64.inf neg else F64.fin neg q1 E

/-- The `float64` value of a Go constant: the exact rational `n / d`, with the
sign `neg`, rounded once. -/
def F64.lit (neg : Bool) (n d : Nat) : F64 :=
  F64.roundQ neg (n * 2 ^ 1074) d

/-- The conversion `float64(j)` of an unsigned integer. -/
def F64.ofNat (j : Nat) : F64 := F64.roundQ false (j * 2 ^ 1074) 1

/-- Unary minus. -/
def F64.neg : F64 → F64
  | F64.nan => F64.nan
  | F64.inf s => F64.inf (!s)
  | F64.fin s m e => F64.fin (!s) m e

/-- The function `math.Abs`. -/
def F64.abs : F64 → F64
  | F64.nan => F64.nan
  | F64.inf _ => F64.inf false
  | F64.fin _ m e => F64.fin false m e

/-- Addition.  The exact sum of two finite numbers is an integer number of
units; a zero sum of two numbers of opposite sign is `+0`. -/
def F64.add : F64 → F64 → F64
  | F64.nan, _ => F64.nan
  | _, F64.nan => F64.nan
  | F64.inf s, F64.inf t => if s = t then F64.inf s else F64.nan
  | F64.inf s, F64.fin _ _ _ => F64.inf s
  | F64.fin _ _ _, F64.inf t => F64.inf t
  | F64.fin s m e, F64.fin t n f =>
    let a := m * 2 ^ e
    let b := n * 2 ^ f
    if s = t then F64.roundQ s (a + b) 1
    else if a = b then F64.fin false 0 0
    else if b < a then F64.roundQ s (a - b) 1
    else F64.roundQ t (b - a) 1

/-- Subtraction. -/
def F64.sub (x y : F64) : F64 := F64.add x (F64.neg y)

/-- Multiplication. -/
def F64.mul : F64 → F64 → F64
  | F64.nan, _ => F64.nan
  | _, F64.nan => F64.nan
  | F64.inf s, F64.inf t => F64.inf (xor s t)
  | F64.inf s, F64.fin t n _ => if n = 0 then F64.nan else F64.inf (xor s t)
  | F64.fin s m _, F64.inf t => if m = 0 then F64.nan else F64.inf (xor s t)
  | F64.fin s m e, F64.fin t n f => F64.roundQ (xor s t) (m * n * 2 ^ (e + f)) (2 ^ 1074)

/-- Division. -/
def F64.div : F64 → F64 → F64
  | F64.nan, _ => F64.nan
  | _, F64.nan => F64.nan
  | F64.inf _, F64.inf _ => F64.nan
  | F64.inf s, F64.fin t _ _ => F64.inf (xor s t)
  | F64.fin s _ _, F64.inf t => F64.fin (xor s t) 0 0
  | F64.fin s m e, F64.fin t n f =>
    if n = 0 then (if m = 0 then F64.nan else F64.inf (xor s t))
    else F64.roundQ (xor s t) (m * 2 ^ (e + 1074)) (n * 2 ^ f)

/-- Bit by bit integer square root: the largest `r` below `2^i` above the
given one with `r * r ≤ N`. -/
def F64.isqrtAux (N : Nat) : Nat → Nat → Nat
  | 0, r => r
  | i + 1, r => F64.isqrtAux N i (if (r + 2 ^ i) * (r + 2 ^ i) ≤ N then r + 2 ^ i else r)

/-- The function `math.Sqrt`, correctly rounded: NaN on a negative number, and
on a positive one the rounding of the integer square root of the scaled
mantissa, with a sticky bit for an inexact root. -/
def F64.sqrt : F64 → F64
  | F64.nan => F64.nan
  | F64.inf s => if s then F64.nan else F64.inf false
  | F64.fin s m e =>
    if m = 0 then F64.fin s 0 e
    else if s then F64.nan
    else
      let k := e + 1074
      let m2 := if k % 2 = 1 then 2 * m else m
      let h := k / 2
      let N := m2 * 2 ^ 120
      let r := F64.isqrtAux N 90 0
      let sticky := if r * r = N then 0 else 1
      F64.roundQ false ((2 * r + sticky) * 2 ^ h) (2 ^ 61)

/-- The function `math.IsNaN`. -/
def F64.isNaN : F64 → Bool
  | F64.nan => true
  | _ => false

/-- The function `math.IsInf(x, 0)`. -/
def F64.isInf : F64 → Bool
  | F64.inf _ => true
  | _ => false

/-- The comparison `x == 0`. -/
def F64.isZero : F64 → Bool
  | F64.fin _ m _ => m == 0
  | _ => false

/-- Whether the datum is a finite number (neither NaN nor an infinity). -/
def F64.isFinite : F64 → Bool
  | F64.fin _ _ _ => true
  | _ => false

/-- The function `math.Signbit`. -/
def F64.signbit : F64 → Bool
  | F64.nan => false
  | F64.inf s => s
  | F64.fin s _ _ => s

/-- The function `math.Copysign`. -/
def F64.copysign (x y : F64) : F64 :=
  if F64.signbit y then F64.neg (F64.abs x) else F64.abs x

/-- The comparison `x < y`; false when an operand is NaN. -/
def F64.lt : F64 → F64 → Bool
  | F64.nan, _ => false
  | _, F64.nan => false
  | F64.inf s, F64.inf t => s && !t
  | F64.inf s, F64.fin _ _ _ => s
  | F64.fin _ _ _, F64.inf t => !t
  | F64.fin s m e, F64.fin t n f =>
    match s, t with
    | false, false => decide (m * 2 ^ e < n * 2 ^ f)
    | true, true => decide (n * 2 ^ f < m * 2 ^ e)
    | true, false => !(m == 0 && n == 0)
    | false, true => false

/-- The comparison `x <= y`; false when an operand is NaN. -/
def F64.le (x y : F64) : Bool :=
  !(F64.isNaN x) && !(F64.isNaN y) && !(F64.lt y x)

/-- The conversion `uint64(x)` of a non-negative finite number below `2^64`:
its integer part.  (Go leaves the other conversions to the implementation;
they are not reached below the reduction threshold.) -/
def F64.toUint64 : F64 → Nat
  | F64.fin false m e => m * 2 ^ e / 2 ^ 1074
  | _ => 0

/-- The IEEE 754 bit pattern, as `math.Float64bits` gives it (with the NaN of
`math.NaN`). -/
def F64.bits : F64 → Nat
  | F64.nan => 0x7FF8000000000001
  | F64.inf s => (if s then 2 ^ 63 else 0) + 0x7FF0000000000000
  | F64.fin s m e =>
    (if s then 2 ^ 63 else 0) + (if m < 2 ^ 52 then m else (e + 1) * 2 ^ 52 + (m - 2 ^ 52))

/-- The numerator of the constant `math.Pi`, which Go gives with 62 decimals. -/
def piNum : Nat := 314159265358979323846264338327950288419716939937510582097494459

/-- The denominator of the constant `math.Pi`. -/
def piDen : Nat := 10 ^ 62

/-- The coefficient `_sin[0]` of `math/sin.go`. -/
def sinCoeff0 : F64 := F64.lit false 158962301576546568060 (10 ^ 30)

/-- The coefficient `_sin[1]`. -/
def sinCoeff1 : F64 := F64.lit true 250507477628578072866 (10 ^ 28)

/-- The coefficient `_sin[2]`. -/
def sinCoeff2 : F64 := F64.lit false 275573136213857245213 (10 ^ 26)

/-- The coefficient `_sin[3]`. -/
def sinCoeff3 : F64 := F64.lit true 198412698295895385996 (10 ^ 24)

/-- The coefficient `_sin[4]`. -/
def sinCoeff4 : F64 := F64.lit false 833333333332211858878 (10 ^ 23)

/-- The coefficient `_sin[5]`. -/
def sinCoeff5 : F64 := F64.lit true 166666666666666307295 (10 ^ 21)

/-- The coefficient `_cos[0]` of `math/sin.go`. -/
def cosCoeff0 : F64 := F64.lit true 113585365213876817300 (10 ^ 31)

/-- The coefficient `_cos[1]`. -/
def cosCoeff1 : F64 := F64.lit false 208757008419747316778 (10 ^ 29)

/-- The coefficient `_cos[2]`. -/
def cosCoeff2 : F64 := F64.lit true 275573141792967388112 (10 ^ 27)

/-- The coefficient `_cos[3]`. -/
def cosCoeff3 : F64 := F64.lit false 248015872888517045348 (10 ^ 25)

/-- The coefficient `_cos[4]`. -/
def cosCoeff4 : F64 := F64.lit true 138888888888730564116 (10 ^ 23)

/-- The coefficient `_cos[5]`. -/
def cosCoeff5 : F64 := F64.lit false 416666666666665929218 (10 ^ 22)

/-- The constant `PI4A` of `math/sin.go`: the leading bits of `Pi/4`. -/
def PI4A : F64 := F64.lit false 785398125648498535156 (10 ^ 21)

/-- The constant `PI4B`. -/
def PI4B : F64 := F64.lit false 377489470793079817668 (10 ^ 28)

/-- The constant `PI4C`. -/
def PI4C : F64 := F64.lit false 269515142907905952645 (10 ^ 35)

/-- The sine polynomial of `math/sin.go`:
`z + z*zz*((((((_sin[0]*zz)+_sin[1])*zz+_sin[2])*zz+_sin[3])*zz+_sin[4])*zz+_sin[5])`. -/
def sinPoly (z zz : F64) : F64 :=
  F64.add z (F64.mul (F64.mul z zz)
    (F64.add (F64.mul (F64.add (F64.mul (F64.add (F64.mul (F64.add (F64.mul (F64.add
      (F64.mul sinCoeff0 zz) sinCoeff1) zz) sinCoeff2) zz) sinCoeff3) zz) sinCoeff4) zz)
      sinCoeff5))

/-- The cosine polynomial of `math/sin.go`:
`1.0 - 0.5*zz + zz*zz*((((((_cos[0]*zz)+_cos[1])*zz+_cos[2])*zz+_cos[3])*zz+_cos[4])*zz+_cos[5])`. -/
def cosPoly (zz : F64) : F64 :=
  F64.add (F64.sub (F64.lit false 1 1) (F64.mul (F64.lit false 1 2) zz))
    (F64.mul (F64.mul zz zz)
      (F64.add (F64.mul (F64.add (F64.mul (F64.add (F64.mul (F64.add (F64.mul (F64.add
        (F64.mul cosCoeff0 zz) cosCoeff1) zz) cosCoeff2) zz) cosCoeff3) zz) cosCoeff4) zz)
        cosCoeff5))

/-- The argument reduction of `math.Sin` and `math.Cos` below the threshold:
`j` is the integer part of `x * (4 / Pi)`, made even, its octant `j & 7` is
returned with `z = ((x - y*PI4A) - y*PI4B) - y*PI4C`. -/
def codyWaite (x : F64) : Nat × F64 :=
  let j := F64.toUint64 (F64.mul x (F64.lit false (4 * piDen) piNum))
  let y := F64.ofNat j
  let j1 := if j % 2 = 1 then j + 1 else j
  let y1 := if j % 2 = 1 then F64.add y (F64.lit false 1 1) else y
  (j1 % 8, F64.sub (F64.sub (F64.sub x (F64.mul y1 PI4A)) (F64.mul y1 PI4B)) (F64.mul y1 PI4C))

/-- The two routines of Go's `math` package that are taken as parameters:
`trigReduce`, the reduction of arguments from `2^29` on (it reads a table of
the bits of `4/Pi`), and `math.Atan`.  No evaluation in this file reaches
either. -/
structure Kernels where
  trigReduce : F64 → Nat × F64
  atan : F64 → F64

/-- The constant `reduceThreshold = 1 << 29` of `math/trig_reduce.go`. -/
def reduceThreshold : F64 := F64.ofNat (2 ^ 29)

/-- The function `math.Sin` (the portable routine of `math/sin.go`). -/
def mathSin (K : Kernels) (x : F64) : F64 :=
  if F64.isZero x || F64.isNaN x then x
  else if F64.isInf x then F64.nan
  else
    let sign := F64.lt x (F64.ofNat 0)
    let x1 := if sign then F64.neg x else x
    let jz := if F64.le reduceThreshold x1 then K.trigReduce x1 else codyWaite x1
    let sign1 := if 3 < jz.1 then !sign else sign
    let j := if 3 < jz.1 then jz.1 - 4 else jz.1
    let zz := F64.mul jz.2 jz.2
    let y := if j = 1 ∨ j = 2 then cosPoly zz else sinPoly jz.2 zz
    if sign1 then F64.neg y else y

/-- The function `math.Cos` (the portable routine of `math/sin.go`). -/
def mathCos (K : Kernels) (x : F64) : F64 :=
  if F64.isNaN x || F64.isInf x then F64.nan
  else
    let x1 := F64.abs x
    let jz := if F64.le reduceThreshold x1 then K.trigReduce x1 else codyWaite x1
    let sign1 := if 3 < jz.1 then true else false
    let j := if 3 < jz.1 then jz.1 - 4 else jz.1
    let sign2 := if 1 < j then !sign1 else sign1
    let zz := F64.mul jz.2 jz.2
    let y := if j = 1 ∨ j = 2 then sinPoly jz.2 zz else cosPoly zz
    if sign2 then F64.neg y else y

/-- The function `math.Atan2(y, x)` of `math/atan2.go`: the special cases, then
the quadrant correction of `Atan(y / x)`. -/
def mathAtan2 (K : Kernels) (y x : F64) : F64 :=
  if F64.isNaN x || F64.isNaN y then F64.nan
  else if F64.isZero y then
    (if F64.le (F64.ofNat 0) x && !F64.signbit x then F64.copysign (F64.ofNat 0) y
     else F64.copysign (F64.lit false piNum piDen) y)
  else if F64.isZero x then F64.copysign (F64.lit false piNum (piDen * 2)) y
  else if F64.isInf x then
    (if !F64.signbit x then
      (if F64.isInf y then F64.copysign (F64.lit false piNum (piDen * 4)) y
       else F64.copysign (F64.ofNat 0) y)
     else
      (if F64.isInf y then F64.copysign (F64.lit false (3 * piNum) (piDen * 4)) y
       else F64.copysign (F64.lit false piNum piDen) y))
  else if F64.isInf y then F64.copysign (F64.lit false piNum (piDen * 2)) y
  else
    let q := K.atan (F64.div y x)
    if F64.lt x (F64.ofNat 0) then
      (if F64.le q (F64.ofNat 0) then F64.add q (F64.lit false piNum piDen)
       else F64.sub q (F64.lit false piNum piDen))
    else q

/-- The local `a` of `haversineDistance` (lines 18-28) in the binary64 reading.
`math.Pi / 180` is a constant expression: it is rounded once. -/
def haversineTerm64 (K : Kernels) (lat1 lon1 lat2 lon2 : F64) : F64 :=
  let lat1Rad := F64.mul lat1 (F64.lit false piNum (piDen * 180))
  let lon1Rad := F64.mul lon1 (F64.lit false piNum (piDen * 180))
  let lat2Rad := F64.mul lat2 (F64.lit false piNum (piDen * 180))
  let lon2Rad := F64.mul lon2 (F64.lit false piNum (piDen * 180))
  let deltaLat := F64.sub lat2Rad lat1Rad
  let deltaLon := F64.sub lon2Rad lon1Rad
  F64.add
    (F64.mul (mathSin K (F64.div deltaLat (F64.ofNat 2)))
      (mathSin K (F64.div deltaLat (F64.ofNat 2))))
    (F64.mul
      (F64.mul (F64.mul (mathCos K lat1Rad) (mathCos K lat2Rad))
        (mathSin K (F64.div deltaLon (F64.ofNat 2))))
      (mathSin K (F64.div deltaLon (F64.ofNat 2))))

/-- The function `haversineDistance` (lines 16-32) in the binary64 reading. -/
def haversineDistance64 (K : Kernels) (lat1 lon1 lat2 lon2 : F64) : F64 :=
  let R := F64.ofNat 6371000
  let a := haversineTerm64 K lat1 lon1 lat2 lon2
  let c := F64.mul (F64.ofNat 2)
    (mathAtan2 K (F64.sqrt a) (F64.sqrt (F64.sub (F64.ofNat 1) a)))
  F64.mul R c

/-! ## Facts about the distance engine -/

theorem haversineTerm_eq (lat1 lon1 lat2 lon2 : ℝ) :
    haversineTerm lat1 lon1 lat2 lon2 =
      Real.sin ((lat2 * (Real.pi / 180) - lat1 * (Real.pi / 180)) / 2) ^ 2 +
        Real.cos (lat1 * (Real.pi / 180)) * Real.cos (lat2 * (Real.pi / 180)) *
          Real.sin ((lon2 * (Real.pi / 180) - lon1 * (Real.pi / 180)) / 2) ^ 2 := by
  simp only [haversineTerm]
  ring

/-- The haversine term written with the cosines of the latitude difference and
latitude sum; every factor on the right is between `0` and `2`. -/
theorem haversineTerm_split (lat1 lon1 lat2 lon2 : ℝ) :
    2 * haversineTerm lat1 lon1 lat2 lon2 =
      (1 - Real.cos (lat2 * (Real.pi / 180) - lat1 * (Real.pi / 180))) *
          (1 - Real.sin ((lon2 * (Real.pi / 180) - lon1 * (Real.pi / 180)) / 2) ^ 2) +
        (1 + Real.cos (lat1 * (Real.pi / 180) + lat2 * (Real.pi / 180))) *
          Real.sin ((lon2 * (Real.pi / 180) - lon1 * (Real.pi / 180)) / 2) ^ 2 := by
  rw [haversineTerm_eq]
  set p := lat1 * (Real.pi / 180)
  set q := lat2 * (Real.pi / 180)
  set s := Real.sin ((lon2 * (Real.pi / 180) - lon1 * (Real.pi / 180)) / 2)
  have h1 : Real.cos (q - p) = 1 - 2 * Real.sin ((q - p) / 2) ^ 2 := by
    have h := Real.cos_two_mul ((q - p) / 2)
    have h2 := Real.sin_sq_add_cos_sq ((q - p) / 2)
    have e : 2 * ((q - p) / 2) = q - p := by ring
    rw [e] at h
    linarith
  have h3 : Real.cos (q - p) = Real.cos q * Real.cos p + Real.sin q * Real.sin p :=
    Real.cos_sub q p
  have h4 : Real.cos (p + q) = Real.cos p * Real.cos q - Real.sin p * Real.sin q :=
    Real.cos_add p q
  have h5 : Real.cos p * Real.cos q = (Real.cos (q - p) + Real.cos (p + q)) / 2 := by
    rw [h3, h4]; ring
  rw [h5, h1]
  ring

/-- In the real reading the haversine term is not negative. -/
theorem haversineTerm_nonneg (lat1 lon1 lat2 lon2 : ℝ) :
    0 ≤ haversineTerm lat1 lon1 lat2 lon2 := by
  have h := haversineTerm_split lat1 lon1 lat2 lon2
  have c1 := Real.cos_le_one (lat2 * (Real.pi / 180) - lat1 * (Real.pi / 180))
  have c2 := Real.neg_one_le_cos (lat1 * (Real.pi / 180) + lat2 * (Real.pi / 180))
  have s1 := Real.sin_sq_le_one ((lon2 * (Real.pi / 180) - lon1 * (Real.pi / 180)) / 2)
  have s0 := sq_nonneg (Real.sin ((lon2 * (Real.pi / 180) - lon1 * (Real.pi / 180)) / 2))
  have t1 := mul_nonneg (sub_nonneg.mpr c1) (sub_nonneg.mpr s1)
  have t2 := mul_nonneg (by linarith : (0:ℝ) ≤
    1 + Real.cos (lat1 * (Real.pi / 180) + lat2 * (Real.pi / 180))) s0
  linarith

/-- In the real reading the haversine term is at most one. -/
theorem haversineTerm_le_one (lat1 lon1 lat2 lon2 : ℝ) :
    haversineTerm lat1 lon1 lat2 lon2 ≤ 1 := by
  have h := haversineTerm_split lat1 lon1 lat2 lon2
  have c1 := Real.neg_one_le_cos (lat2 * (Real.pi / 180) - lat1 * (Real.pi / 180))
  have c2 := Real.cos_le_one (lat1 * (Real.pi / 180) + lat2 * (Real.pi / 180))
  have s1 := Real.sin_sq_le_one ((lon2 * (Real.pi / 180) - lon1 * (Real.pi / 180)) / 2)
  have s0 := sq_nonneg (Real.sin ((lon2 * (Real.pi / 180) - lon1 * (Real.pi / 180)) / 2))
  have t1 := mul_nonneg (by linarith : (0:ℝ) ≤
    1 + Real.cos (lat2 * (Real.pi / 180) - lat1 * (Real.pi / 180))) (sub_nonneg.mpr s1)
  have t2 := mul_nonneg (sub_nonneg.mpr c2) s0
  nlinarith

/-- On the arguments that `haversineDistance` passes, `atan2` is the arcsine
of its first argument. -/
theorem atan2_sqrt (a : ℝ) (h0 : 0 ≤ a) (h1 : a ≤ 1) :
    atan2 (Real.sqrt a) (Real.sqrt (1 - a)) = Real.arcsin (Real.sqrt a) := by
  unfold atan2
  by_cases ha : a = 0
  · subst ha; simp
  have hapos : 0 < a := lt_of_le_of_ne h0 (Ne.symm ha)
  have hs : 0 < Real.sqrt a := Real.sqrt_pos.mpr hapos
  rw [if_neg (ne_of_gt hs)]
  by_cases hb : a = 1
  · subst hb; simp
  have hlt : a < 1 := lt_of_le_of_ne h1 hb
  have hx : 0 < Real.sqrt (1 - a) := Real.sqrt_pos.mpr (by linarith)
  rw [if_neg (ne_of_gt hx)]
  simp only [if_neg (not_lt.mpr (le_of_lt hx))]
  have hs1 : Real.sqrt a < 1 := by
    rw [Real.sqrt_lt' (by norm_num)]; simpa using hlt
  rw [Real.arcsin_eq_arctan ⟨by linarith, hs1⟩, Real.sq_sqrt h0]

/-- In the real reading the distance is `2 R arcsin (√a)`. -/
theorem haversineDistance_eq (lat1 lon1 lat2 lon2 : ℝ) :
    haversineDistance lat1 lon1 lat2 lon2 =
      6371000 * (2 * Real.arcsin (Real.sqrt (haversineTerm lat1 lon1 lat2 lon2))) := by
  simp only [haversineDistance]
  rw [atan2_sqrt _ (haversineTerm_nonneg _ _ _ _) (haversineTerm_le_one _ _ _ _)]

theorem haversineTerm_comm (lat1 lon1 lat2 lon2 : ℝ) :
    haversineTerm lat1 lon1 lat2 lon2 = haversineTerm lat2 lon2 lat1 lon1 := by
  rw [haversineTerm_eq, haversineTerm_eq]
  have e1 : (lat1 * (Real.pi / 180) - lat2 * (Real.pi / 180)) / 2 =
      -((lat2 * (Real.pi / 180) - lat1 * (Real.pi / 180)) / 2) := by ring
  have e2 : (lon1 * (Real.pi / 180) - lon2 * (Real.pi / 180)) / 2 =
      -((lon2 * (Real.pi / 180) - lon1 * (Real.pi / 180)) / 2) := by ring
  rw [e1, e2, Real.sin_neg, Real.sin_neg]
  ring

/-- In the real reading the distance is not negative. -/
theorem haversineDistance_nonneg (lat1 lon1 lat2 lon2 : ℝ) :
    0 ≤ haversineDistance lat1 lon1 lat2 lon2 := by
  rw [haversineDistance_eq]
  have h : 0 ≤ Real.arcsin (Real.sqrt (haversineTerm lat1 lon1 lat2 lon2)) :=
    Real.arcsin_nonneg.mpr (Real.sqrt_nonneg _)
  linarith

/-- In the real reading the distance vanishes exactly when the haversine term
does. -/
theorem haversineDistance_eq_zero_iff (lat1 lon1 lat2 lon2 : ℝ) :
    haversineDistance lat1 lon1 lat2 lon2 = 0 ↔ haversineTerm lat1 lon1 lat2 lon2 = 0 := by
  rw [haversineDistance_eq]
  constructor
  · intro h
    have h2 : Real.arcsin (Real.sqrt (haversineTerm lat1 lon1 lat2 lon2)) = 0 := by linarith
    rw [Real.arcsin_eq_zero_iff] at h2
    exact (Real.sqrt_eq_zero (haversineTerm_nonneg _ _ _ _)).mp h2
  · intro h
    rw [h]; simp

/-- On the equator the distance is the arc `R * |Δlon|` (in radians), as long
as the longitudes differ by at most 180 degrees. -/
theorem haversineDistance_equator (lon1 lon2 : ℝ) (h : |lon2 - lon1| ≤ 180) :
    haversineDistance 0 lon1 0 lon2 = 6371000 * (|lon2 - lon1| * (Real.pi / 180)) := by
  have hpi := Real.pi_pos
  rw [haversineDistance_eq, haversineTerm_eq]
  simp only [zero_mul, sub_zero, zero_div, Real.sin_zero, Real.cos_zero, mul_one, one_mul]
  have e0 : (0:ℝ) ^ 2 + Real.sin ((lon2 * (Real.pi / 180) - lon1 * (Real.pi / 180)) / 2) ^ 2 =
      Real.sin ((lon2 * (Real.pi / 180) - lon1 * (Real.pi / 180)) / 2) ^ 2 := by ring
  rw [e0, Real.sqrt_sq_eq_abs]
  set t := (lon2 * (Real.pi / 180) - lon1 * (Real.pi / 180)) / 2 with ht
  have habs : |t| = |lon2 - lon1| * (Real.pi / 360) := by
    have e : t = (lon2 - lon1) * (Real.pi / 360) := by rw [ht]; ring
    rw [e, abs_mul, abs_of_pos (by positivity : (0:ℝ) < Real.pi / 360)]
  have hle : |t| ≤ Real.pi / 2 := by
    rw [habs]
    have := mul_le_mul_of_nonneg_right h (by positivity : (0:ℝ) ≤ Real.pi / 360)
    linarith
  have hsin : |Real.sin t| = Real.sin |t| := by
    rcases abs_cases t with ⟨e, h0⟩ | ⟨e, h0⟩
    · rw [e, abs_of_nonneg]
      exact Real.sin_nonneg_of_nonneg_of_le_pi h0 (by rw [e] at hle; linarith)
    · rw [e, Real.sin_neg, abs_of_nonpos]
      exact Real.sin_nonpos_of_nonnpos_of_neg_pi_le (le_of_lt h0) (by rw [e] at hle; linarith)
  rw [hsin, Real.arcsin_sin (by linarith [abs_nonneg t]) hle, habs]
  ring

/-! ## The distance engine: symmetry and the equator fixture -/

/-- C4: `haversineDistance` is symmetric: exchanging the two points gives the
same distance, exactly, in real arithmetic. -/
theorem haversineDistance_symmetric (lat1 lon1 lat2 lon2 : ℝ) :
    haversineDistance lat1 lon1 lat2 lon2 = haversineDistance lat2 lon2 lat1 lon1 := by
  rw [haversineDistance_eq, haversineDistance_eq, haversineTerm_comm]

/-- C9: the distance between (0, 0) and (0, 1) lies in [111145, 111245]; it
is `R * π / 180`. -/
theorem haversineDistance_equator_degree :
    111145 ≤ haversineDistance 0 0 0 1 ∧ haversineDistance 0 0 0 1 ≤ 111245 := by
  rw [haversineDistance_equator 0 1 (by norm_num)]
  have h1 := Real.pi_gt_d6
  have h2 := Real.pi_lt_d6
  have e : |(1:ℝ) - 0| = 1 := by norm_num
  rw [e]
  constructor <;> norm_num <;> linarith

/-! ## Facts about the loop -/

/-- What a completed iteration did to the state. -/
theorem loopBody_ok (vehicle zone : M) (zoneLat zoneLon : ℝ) (radius : Int)
    (st st1 : RunState) (item : Option M)
    (h : loopBody vehicle zone zoneLat zoneLon radius st item = Except.ok st1) :
    (tracked item = false ∧ st1 = st) ∨
      (tracked item = true ∧ labels vehicle zone = true ∧ ∃ d : ℝ, 0 ≤ d ∧
        ((d < (radius : ℝ) ∧ st1 = RunState.mk (st.inboundCount + 1) st.outboundCount
            (st.printed ++ [⟨d, Classification.inbound⟩])) ∨
         (¬ d < (radius : ℝ) ∧ st1 = RunState.mk st.inboundCount (st.outboundCount + 1)
            (st.printed ++ [⟨d, Classification.outbound⟩])))) := by
  unfold loopBody at h
  cases item with
  | none => simp at h
  | some telematics =>
    simp only at h
    cases hi : asInt64 (index telematics "imei") with
    | none => simp [hi] at h
    | some v =>
      simp only [hi] at h
      by_cases hv : v = imei
      · simp only [hv, ne_eq, not_true_eq_false, if_false] at h
        cases hg : asDocument (index telematics "gps") with
        | none => simp [hg] at h
        | some gps =>
          simp only [hg] at h
          cases hlat : asFloat64 (index gps "latitude") with
          | none => simp [hlat] at h
          | some gpsLat =>
            simp only [hlat] at h
            cases hlon : asFloat64 (index gps "longitude") with
            | none => simp [hlon] at h
            | some gpsLon =>
              simp only [hlon] at h
              cases hr : asString (index vehicle "registrationNumber") with
              | none => simp [hr] at h
              | some reg =>
                cases hn : asString (index zone "name") with
                | none => simp [hr, hn] at h
                | some name =>
                  simp only [hr, hn] at h
                  right
                  refine ⟨by simp [tracked, hi, hv], by simp [labels, hr, hn],
                    haversineDistance gpsLat gpsLon zoneLat zoneLon,
                    haversineDistance_nonneg _ _ _ _, ?_⟩
                  by_cases hd : haversineDistance gpsLat gpsLon zoneLat zoneLon < (radius : ℝ)
                  · left
                    rw [if_pos hd] at h
                    exact ⟨hd, (Except.ok.inj h).symm⟩
                  · right
                    rw [if_neg hd] at h
                    exact ⟨hd, (Except.ok.inj h).symm⟩
      · left
        simp only [ne_eq, hv, not_false_eq_true, if_true] at h
        exact ⟨by simp [tracked, hi, hv], (Except.ok.inj h).symm⟩

theorem advance_initial (st : RunState) : advance st initial = st := by
  cases st
  simp [advance, initial]

theorem advance_assoc (a b c : RunState) :
    advance (advance a b) c = advance a (advance b c) := by
  simp [advance, Nat.add_assoc, List.append_assoc]

/-- An iteration acts on the state by increments that do not depend on the
state: it can be replayed from the initial state. -/
theorem loopBody_shift (vehicle zone : M) (zoneLat zoneLon : ℝ) (radius : Int)
    (st : RunState) (item : Option M) :
    loopBody vehicle zone zoneLat zoneLon radius st item =
      match loopBody vehicle zone zoneLat zoneLon radius initial item with
      | Except.error e => Except.error e
      | Except.ok d => Except.ok (advance st d) := by
  unfold loopBody
  cases item with
  | none => rfl
  | some telematics =>
    simp only
    cases hi : asInt64 (index telematics "imei") with
    | none => rfl
    | some v =>
      simp only
      by_cases hv : v = imei
      · simp only [hv, ne_eq, not_true_eq_false, if_false]
        cases hg : asDocument (index telematics "gps") with
        | none => rfl
        | some gps =>
          simp only
          cases hlat : asFloat64 (index gps "latitude") with
          | none => rfl
          | some gpsLat =>
            simp only
            cases hlon : asFloat64 (index gps "longitude") with
            | none => rfl
            | some gpsLon =>
              simp only
              cases hr : asString (index vehicle "registrationNumber") with
              | none => split <;> rfl
              | some reg =>
                cases hn : asString (index zone "name") with
                | none => split <;> rfl
                | some name =>
                  split <;> simp [advance, initial]
      · simp only [ne_eq, hv, not_false_eq_true, if_true]
        rw [advance_initial]

/-- The loop acts on the state by increments that do not depend on the state. -/
theorem loop_shift (vehicle zone : M) (zoneLat zoneLon : ℝ) (radius : Int)
    (cursor : List (Option M)) (st : RunState) :
    loop vehicle zone zoneLat zoneLon radius st cursor =
      match loop vehicle zone zoneLat zoneLon radius initial cursor with
      | Except.error e => Except.error e
      | Except.ok d => Except.ok (advance st d) := by
  induction cursor generalizing st with
  | nil => simp [loop, advance_initial]
  | cons item rest ih =>
    unfold loop
    rw [loopBody_shift vehicle zone zoneLat zoneLon radius st item]
    cases hb : loopBody vehicle zone zoneLat zoneLon radius initial item with
    | error e => rfl
    | ok d =>
      simp only
      rw [ih (advance st d), ih d]
      cases hl : loop vehicle zone zoneLat zoneLon radius initial rest with
      | error e => rfl
      | ok t => simp only [advance_assoc]

/-- A completed loop over `item :: rest` splits into the increments of the
first iteration and those of the remaining ones. -/
theorem loop_cons_ok (vehicle zone : M) (zoneLat zoneLon : ℝ) (radius : Int)
    (item : Option M) (rest : List (Option M)) (s : RunState) :
    loop vehicle zone zoneLat zoneLon radius initial (item :: rest) = Except.ok s ↔
      ∃ d t, loopBody vehicle zone zoneLat zoneLon radius initial item = Except.ok d ∧
        loop vehicle zone zoneLat zoneLon radius initial rest = Except.ok t ∧
        s = advance d t := by
  rw [loop]
  cases hb : loopBody vehicle zone zoneLat zoneLon radius initial item with
  | error e => simp
  | ok d =>
    simp only
    rw [loop_shift vehicle zone zoneLat zoneLon radius rest d]
    cases hl : loop vehicle zone zoneLat zoneLon radius initial rest with
    | error e => simp
    | ok t =>
      simp only [Except.ok.injEq]
      constructor
      · intro h; exact ⟨d, t, rfl, rfl, h.symm⟩
      · rintro ⟨d1, t1, h1, h2, h3⟩
        rw [h3, h1, h2]

/-- A loop that completes on one ordering of the records completes on every
other ordering, with the same two counts. -/
theorem loop_perm (vehicle zone : M) (zoneLat zoneLon : ℝ) (radius : Int)
    (c1 c2 : List (Option M)) (h : c1.Perm c2) :
    ∀ s1, loop vehicle zone zoneLat zoneLon radius initial c1 = Except.ok s1 →
      ∃ s2, loop vehicle zone zoneLat zoneLon radius initial c2 = Except.ok s2 ∧
        s2.inboundCount = s1.inboundCount ∧ s2.outboundCount = s1.outboundCount := by
  induction h with
  | nil => intro s1 h1; exact ⟨s1, h1, rfl, rfl⟩
  | cons x _ ih =>
    intro s1 h1
    obtain ⟨d, t, hd, ht, hs⟩ := (loop_cons_ok _ _ _ _ _ _ _ _).mp h1
    obtain ⟨t2, ht2, hi, ho⟩ := ih t ht
    refine ⟨advance d t2, (loop_cons_ok _ _ _ _ _ _ _ _).mpr ⟨d, t2, hd, ht2, rfl⟩, ?_, ?_⟩
    · rw [hs]; simp [advance, hi]
    · rw [hs]; simp [advance, ho]
  | swap x y l =>
    intro s1 h1
    obtain ⟨dy, t, hdy, ht, hs⟩ := (loop_cons_ok _ _ _ _ _ _ _ _).mp h1
    obtain ⟨dx, u, hdx, hu, hts⟩ := (loop_cons_ok _ _ _ _ _ _ _ _).mp ht
    refine ⟨advance dx (advance dy u),
      (loop_cons_ok _ _ _ _ _ _ _ _).mpr
        ⟨dx, advance dy u, hdx, (loop_cons_ok _ _ _ _ _ _ _ _).mpr ⟨dy, u, hdy, hu, rfl⟩, rfl⟩,
      ?_, ?_⟩
    · rw [hs, hts]; simp only [advance]; omega
    · rw [hs, hts]; simp only [advance]; omega
  | trans _ _ ih1 ih2 =>
    intro s1 h1
    obtain ⟨s2, h2, hi2, ho2⟩ := ih1 s1 h1
    obtain ⟨s3, h3, hi3, ho3⟩ := ih2 s2 h2
    exact ⟨s3, h3, hi3.trans hi2, ho3.trans ho2⟩

theorem countOf_append_single (c : Classification) (printed : List Report) (r : Report) :
    countOf c (printed ++ [r]) =
      countOf c printed + (if r.classification = c then 1 else 0) := by
  unfold countOf
  rw [List.filter_append, List.length_append]
  by_cases h : r.classification = c <;> simp [List.filter, h]

/-- The bookkeeping of a completed loop: each record of the tracked entity
added one report and one to exactly one counter; every other record changed
nothing. -/
theorem loop_counts (vehicle zone : M) (zoneLat zoneLon : ℝ) (radius : Int)
    (cursor : List (Option M)) :
    ∀ st s, loop vehicle zone zoneLat zoneLon radius st cursor = Except.ok s →
      s.inboundCount + s.outboundCount =
          st.inboundCount + st.outboundCount + (cursor.filter tracked).length ∧
        s.printed.length = st.printed.length + (cursor.filter tracked).length ∧
        s.inboundCount + countOf Classification.inbound st.printed =
          st.inboundCount + countOf Classification.inbound s.printed ∧
        s.outboundCount + countOf Classification.outbound st.printed =
          st.outboundCount + countOf Classification.outbound s.printed := by
  induction cursor with
  | nil =>
    intro st s h
    simp only [loop, Except.ok.injEq] at h
    subst h
    simp
  | cons item rest ih =>
    intro st s h
    rw [loop] at h
    cases hb : loopBody vehicle zone zoneLat zoneLon radius st item with
    | error e => rw [hb] at h; simp at h
    | ok st1 =>
      rw [hb] at h
      simp only at h
      obtain ⟨h1, h2, h3, h4⟩ := ih st1 s h
      rcases loopBody_ok _ _ _ _ _ _ _ _ hb with ⟨ht, he⟩ | ⟨ht, _, d, _, ⟨_, he⟩ | ⟨_, he⟩⟩
      · subst he
        simp only [List.filter_cons, ht]
        exact ⟨h1, h2, h3, h4⟩
      · subst he
        have hf : ((item :: rest).filter tracked).length = (rest.filter tracked).length + 1 := by
          simp [List.filter_cons, ht]
        have c1 := countOf_append_single Classification.inbound st.printed
          ⟨d, Classification.inbound⟩
        have c2 := countOf_append_single Classification.outbound st.printed
          ⟨d, Classification.inbound⟩
        simp only [if_true] at c1
        rw [if_neg (by simp)] at c2
        dsimp only at h1 h2 h3 h4
        rw [c1] at h3
        rw [c2] at h4
        rw [List.length_append, List.length_singleton] at h2
        rw [hf]
        refine ⟨by omega, by omega, by omega, by omega⟩
      · subst he
        have hf : ((item :: rest).filter tracked).length = (rest.filter tracked).length + 1 := by
          simp [List.filter_cons, ht]
        have c1 := countOf_append_single Classification.inbound st.printed
          ⟨d, Classification.outbound⟩
        have c2 := countOf_append_single Classification.outbound st.printed
          ⟨d, Classification.outbound⟩
        rw [if_neg (by simp)] at c1
        simp only [if_true] at c2
        dsimp only at h1 h2 h3 h4
        rw [c1] at h3
        rw [c2] at h4
        rw [List.length_append, List.length_singleton] at h2
        rw [hf]
        refine ⟨by omega, by omega, by omega, by omega⟩

/-- With a negative radius no record is counted inbound. -/
theorem loop_negative_radius (vehicle zone : M) (zoneLat zoneLon : ℝ) (radius : Int)
    (hr : radius < 0) (cursor : List (Option M)) :
    ∀ st s, loop vehicle zone zoneLat zoneLon radius st cursor = Except.ok s →
      s.inboundCount = st.inboundCount ∧
        (∀ r ∈ s.printed, r ∈ st.printed ∨ r.classification = Classification.outbound) := by
  have hneg : ((radius : ℤ) : ℝ) < 0 := by exact_mod_cast hr
  induction cursor with
  | nil =>
    intro st s h
    simp only [loop, Except.ok.injEq] at h
    subst h
    exact ⟨rfl, fun r hr => Or.inl hr⟩
  | cons item rest ih =>
    intro st s h
    rw [loop] at h
    cases hb : loopBody vehicle zone zoneLat zoneLon radius st item with
    | error e => rw [hb] at h; simp at h
    | ok st1 =>
      rw [hb] at h
      simp only at h
      obtain ⟨h1, h2⟩ := ih st1 s h
      rcases loopBody_ok _ _ _ _ _ _ _ _ hb with ⟨_, he⟩ | ⟨_, _, d, hd, ⟨hlt, _⟩ | ⟨_, he⟩⟩
      · subst he
        exact ⟨h1, h2⟩
      · exact absurd hlt (not_lt.mpr (le_trans (le_of_lt hneg) hd))
      · subst he
        refine ⟨h1, fun r hr => ?_⟩
        rcases h2 r hr with h3 | h3
        · rcases List.mem_append.mp h3 with h4 | h4
          · exact Or.inl h4
          · right
            rw [List.mem_singleton.mp h4]
        · exact Or.inr h3

/-- An iteration completes on a record that passes the field extraction, when
the two message strings are present. -/
theorem loopBody_total (vehicle zone : M) (zoneLat zoneLon : ℝ) (radius : Int)
    (st : RunState) (item : Option M)
    (hl : labels vehicle zone = true) (hi : recordOk item = true) :
    ∃ st1, loopBody vehicle zone zoneLat zoneLon radius st item = Except.ok st1 := by
  unfold loopBody
  unfold recordOk at hi
  unfold labels at hl
  cases item with
  | none => simp at hi
  | some telematics =>
    simp only at hi ⊢
    cases hv : asInt64 (index telematics "imei") with
    | none => simp [hv] at hi
    | some v =>
      simp only [hv] at hi ⊢
      by_cases hvi : v = imei
      · simp only [hvi, ne_eq, not_true_eq_false, if_false] at hi ⊢
        cases hg : asDocument (index telematics "gps") with
        | none => simp [hg] at hi
        | some gps =>
          simp only [hg] at hi ⊢
          cases hlat : asFloat64 (index gps "latitude") with
          | none => simp [hlat] at hi
          | some gpsLat =>
            cases hlon : asFloat64 (index gps "longitude") with
            | none => simp [hlon] at hi
            | some gpsLon =>
              cases hr : asString (index vehicle "registrationNumber") with
              | none => simp [hr] at hl
              | some reg =>
                cases hn : asString (index zone "name") with
                | none => simp [hn] at hl
                | some name =>
                  simp only
                  split <;> exact ⟨_, rfl⟩
      · simp only [ne_eq, hvi, not_false_eq_true, if_true]
        exact ⟨_, rfl⟩

/-- The loop completes when every iteration can. -/
theorem loop_total (vehicle zone : M) (zoneLat zoneLon : ℝ) (radius : Int)
    (hl : labels vehicle zone = true) (cursor : List (Option M))
    (hc : ∀ item ∈ cursor, recordOk item = true) :
    ∀ st, ∃ s, loop vehicle zone zoneLat zoneLon radius st cursor = Except.ok s := by
  induction cursor with
  | nil => intro st; exact ⟨st, rfl⟩
  | cons item rest ih =>
    intro st
    obtain ⟨st1, h1⟩ := loopBody_total vehicle zone zoneLat zoneLon radius st item hl
      (hc item (List.mem_cons_self _ _))
    obtain ⟨s, h2⟩ := ih (fun i hi => hc i (List.mem_cons_of_mem _ hi)) st1
    exact ⟨s, by rw [loop, h1]; exact h2⟩

/-- A run completes exactly when the three zone fields are extracted and the
loop completes from the initial state. -/
theorem main_ok_iff (vehicle zone : M) (cursor : List (Option M)) (s : RunState) :
    main vehicle zone cursor = Except.ok s ↔
      ∃ zoneLat zoneLon radius,
        asFloat64 (index zone "latitude") = some zoneLat ∧
        asFloat64 (index zone "longitude") = some zoneLon ∧
        asInt32 (index zone "radius") = some radius ∧
        loop vehicle zone zoneLat zoneLon radius initial cursor = Except.ok s := by
  unfold main
  cases h1 : asFloat64 (index zone "latitude") with
  | none => simp
  | some zoneLat =>
    cases h2 : asFloat64 (index zone "longitude") with
    | none => simp
    | some zoneLon =>
      cases h3 : asInt32 (index zone "radius") with
      | none => simp
      | some radius => simp [initial]

theorem main_total (vehicle zone : M) (cursor : List (Option M))
    (hz : zoneFields zone = true) (hl : labels vehicle zone = true)
    (hc : ∀ item ∈ cursor, recordOk item = true) :
    ∃ s, main vehicle zone cursor = Except.ok s := by
  unfold zoneFields at hz
  simp only [Bool.and_eq_true, Option.isSome_iff_exists] at hz
  obtain ⟨⟨⟨zoneLat, h1⟩, ⟨zoneLon, h2⟩⟩, ⟨radius, h3⟩⟩ := hz
  obtain ⟨s, hs⟩ := loop_total vehicle zone zoneLat zoneLon radius hl cursor hc initial
  exact ⟨s, (main_ok_iff _ _ _ _).mpr ⟨zoneLat, zoneLon, radius, h1, h2, h3, hs⟩⟩

/-- The iteration on a record of the tracked entity whose fields have the
asserted types. -/
theorem loopBody_tracked (vehicle zone : M) (zoneLat zoneLon : ℝ) (radius : Int)
    (st : RunState) (telematics gps : M) (gpsLat gpsLon : ℝ)
    (himei : asInt64 (index telematics "imei") = some imei)
    (hgps : asDocument (index telematics "gps") = some gps)
    (hlat : asFloat64 (index gps "latitude") = some gpsLat)
    (hlon : asFloat64 (index gps "longitude") = some gpsLon)
    (hlab : labels vehicle zone = true) :
    loopBody vehicle zone zoneLat zoneLon radius st (some telematics) =
      if haversineDistance gpsLat gpsLon zoneLat zoneLon < (radius : ℝ) then
        Except.ok (RunState.mk (st.inboundCount + 1) st.outboundCount
          (st.printed ++ [⟨haversineDistance gpsLat gpsLon zoneLat zoneLon,
            Classification.inbound⟩]))
      else
        Except.ok (RunState.mk st.inboundCount (st.outboundCount + 1)
          (st.printed ++ [⟨haversineDistance gpsLat gpsLon zoneLat zoneLon,
            Classification.outbound⟩])) := by
  unfold labels at hlab
  simp only [Bool.and_eq_true, Option.isSome_iff_exists] at hlab
  obtain ⟨⟨reg, hreg⟩, ⟨name, hname⟩⟩ := hlab
  unfold loopBody
  simp only [himei, hgps, hlat, hlon, hreg, hname, ne_eq, not_true_eq_false, if_false]

theorem sampleRecord_fields (entity : Int) (lat lon : ℝ) :
    asInt64 (index (sampleRecord entity lat lon) "imei") = some entity ∧
      asDocument (index (sampleRecord entity lat lon) "gps") =
        some [("latitude", Value.double lat), ("longitude", Value.double lon)] ∧
      asFloat64 (index [("latitude", Value.double lat), ("longitude", Value.double lon)]
        "latitude") = some lat ∧
      asFloat64 (index [("latitude", Value.double lat), ("longitude", Value.double lon)]
        "longitude") = some lon :=
  ⟨rfl, rfl, rfl, rfl⟩

theorem sampleRecord_ok (entity : Int) (lat lon : ℝ) :
    recordOk (some (sampleRecord entity lat lon)) = true := by
  simp only [recordOk, (sampleRecord_fields entity lat lon).1,
    (sampleRecord_fields entity lat lon).2.1]
  split <;> rfl

theorem hundredMetresEast_distance :
    haversineDistance 0 hundredMetresEast 0 0 = 100 := by
  have hpi := Real.pi_pos
  have hx : 0 < hundredMetresEast := by unfold hundredMetresEast; positivity
  have hle : hundredMetresEast ≤ 180 := by
    unfold hundredMetresEast
    rw [div_le_iff₀ (by positivity)]
    nlinarith [Real.pi_gt_three]
  have habs : |0 - hundredMetresEast| = hundredMetresEast := by
    rw [zero_sub, abs_neg, abs_of_pos hx]
  rw [haversineDistance_equator hundredMetresEast 0 (by rw [habs]; exact hle), habs]
  unfold hundredMetresEast
  field_simp
  ring

/-- The content of a run with a negative radius: it is carried out like any
other, and every record of the tracked entity is reported outbound. -/
theorem main_negative_radius (vehicle zone : M) (cursor : List (Option M)) (radius : Int)
    (hr : asInt32 (index zone "radius") = some radius) (hneg : radius < 0) :
    (∀ s, main vehicle zone cursor = Except.ok s →
        s.inboundCount = 0 ∧ s.outboundCount = (cursor.filter tracked).length ∧
          s.printed.length = (cursor.filter tracked).length ∧
          ∀ r ∈ s.printed, r.classification = Classification.outbound) ∧
      (zoneFields zone = true → labels vehicle zone = true →
        (∀ item ∈ cursor, recordOk item = true) →
          ∃ s, main vehicle zone cursor = Except.ok s) := by
  refine ⟨?_, main_total vehicle zone cursor⟩
  intro s hs
  obtain ⟨zoneLat, zoneLon, radius1, _, _, h3, hl⟩ := (main_ok_iff _ _ _ _).mp hs
  rw [hr] at h3
  have e : radius = radius1 := Option.some.inj h3
  subst e
  obtain ⟨h1, h2, _, _⟩ := loop_counts vehicle zone zoneLat zoneLon radius cursor initial s hl
  obtain ⟨h5, h6⟩ :=
    loop_negative_radius vehicle zone zoneLat zoneLon radius hneg cursor initial s hl
  simp only [initial] at h1 h2 h5 h6
  refine ⟨h5, by omega, by simpa using h2, fun r hr => ?_⟩
  rcases h6 r hr with h7 | h7
  · simp at h7
  · exact h7

/-! ## The classification loop: decision rule, counts, negative radius, order -/

/-- C1: for every zone (centre and radius), every state of the counters and
every record of the tracked entity with a position, the iteration classifies
the record Inbound (and adds one to `inboundCount`) exactly when
`haversineDistance(sample, centre) < radius`, and Outbound (adding one to
`outboundCount`) otherwise; in particular a record whose distance equals the
radius is classified Outbound. -/
theorem loopBody_decision_rule (vehicle zone : M) (zoneLat zoneLon : ℝ) (radius : Int)
    (st : RunState) (telematics gps : M) (gpsLat gpsLon : ℝ)
    (himei : asInt64 (index telematics "imei") = some imei)
    (hgps : asDocument (index telematics "gps") = some gps)
    (hlat : asFloat64 (index gps "latitude") = some gpsLat)
    (hlon : asFloat64 (index gps "longitude") = some gpsLon)
    (hlab : labels vehicle zone = true) :
    (haversineDistance gpsLat gpsLon zoneLat zoneLon < (radius : ℝ) →
        loopBody vehicle zone zoneLat zoneLon radius st (some telematics) =
          Except.ok (RunState.mk (st.inboundCount + 1) st.outboundCount
            (st.printed ++ [⟨haversineDistance gpsLat gpsLon zoneLat zoneLon,
              Classification.inbound⟩]))) ∧
      (¬ haversineDistance gpsLat gpsLon zoneLat zoneLon < (radius : ℝ) →
        loopBody vehicle zone zoneLat zoneLon radius st (some telematics) =
          Except.ok (RunState.mk st.inboundCount (st.outboundCount + 1)
            (st.printed ++ [⟨haversineDistance gpsLat gpsLon zoneLat zoneLon,
              Classification.outbound⟩]))) ∧
      (haversineDistance gpsLat gpsLon zoneLat zoneLon = (radius : ℝ) →
        loopBody vehicle zone zoneLat zoneLon radius st (some telematics) =
          Except.ok (RunState.mk st.inboundCount (st.outboundCount + 1)
            (st.printed ++ [⟨haversineDistance gpsLat gpsLon zoneLat zoneLon,
              Classification.outbound⟩]))) := by
  have h := loopBody_tracked vehicle zone zoneLat zoneLon radius st telematics gps
    gpsLat gpsLon himei hgps hlat hlon hlab
  refine ⟨fun hd => ?_, fun hd => ?_, fun hd => ?_⟩
  · rw [h, if_pos hd]
  · rw [h, if_neg hd]
  · rw [h, if_neg (not_lt.mpr (le_of_eq hd.symm))]

/-- C1 at the boundary: with radius 100 and a record at distance exactly 100
from the centre, the record is reported outbound and `outboundCount` becomes 1. -/
theorem loopBody_decision_rule_witness :
    haversineDistance 0 hundredMetresEast 0 0 = ((100 : Int) : ℝ) ∧
      loopBody sampleVehicle (sampleZone 100) 0 0 100 initial
          (some (sampleRecord imei 0 hundredMetresEast)) =
        Except.ok (RunState.mk initial.inboundCount (initial.outboundCount + 1)
          (initial.printed ++ [⟨haversineDistance 0 hundredMetresEast 0 0,
            Classification.outbound⟩])) :=
  have hd : haversineDistance 0 hundredMetresEast 0 0 = ((100 : Int) : ℝ) := by
    rw [hundredMetresEast_distance]; norm_num
  ⟨hd, (loopBody_decision_rule sampleVehicle (sampleZone 100) 0 0 100 initial
    (sampleRecord imei 0 hundredMetresEast)
    [("latitude", Value.double 0), ("longitude", Value.double hundredMetresEast)]
    0 hundredMetresEast rfl rfl rfl rfl rfl).2.2 hd⟩

/-- C2: when the run completes, `inboundCount + outboundCount` is the number
of records of the tracked entity among those the cursor yielded; each of them
produced exactly one report, and each counter is the number of reports with
its classification, so each processed record added one to exactly one counter.
A run over well-formed documents does complete. -/
theorem main_counting_invariant (vehicle zone : M) (cursor : List (Option M)) :
    (∀ s, main vehicle zone cursor = Except.ok s →
        s.inboundCount + s.outboundCount = (cursor.filter tracked).length ∧
          s.printed.length = (cursor.filter tracked).length ∧
          s.inboundCount = countOf Classification.inbound s.printed ∧
          s.outboundCount = countOf Classification.outbound s.printed) ∧
      (zoneFields zone = true → labels vehicle zone = true →
        (∀ item ∈ cursor, recordOk item = true) →
          ∃ s, main vehicle zone cursor = Except.ok s) := by
  refine ⟨?_, main_total vehicle zone cursor⟩
  intro s hs
  obtain ⟨zoneLat, zoneLon, radius, _, _, _, hl⟩ := (main_ok_iff _ _ _ _).mp hs
  obtain ⟨h1, h2, h3, h4⟩ := loop_counts vehicle zone zoneLat zoneLon radius cursor initial s hl
  simp only [initial, countOf, List.filter_nil, List.length_nil] at h1 h2 h3 h4
  simp only [countOf]
  refine ⟨by omega, by omega, by omega, by omega⟩

/-- C2 on a cursor of three records, two of them of the tracked entity: the
run completes and the two counts add up to 2. -/
theorem main_counting_invariant_witness :
    ∃ s, main sampleVehicle (sampleZone 500)
          [some (sampleRecord imei 0 0), some (sampleRecord 42 5 5),
            some (sampleRecord imei 0 1)] = Except.ok s ∧
      s.inboundCount + s.outboundCount = 2 ∧ s.printed.length = 2 := by
  have h := main_counting_invariant sampleVehicle (sampleZone 500)
    [some (sampleRecord imei 0 0), some (sampleRecord 42 5 5), some (sampleRecord imei 0 1)]
  obtain ⟨s, hs⟩ := h.2 rfl rfl (by
    intro item hi
    simp only [List.mem_cons, List.mem_singleton, List.not_mem_nil, or_false] at hi
    rcases hi with e | e | e <;> rw [e] <;> exact sampleRecord_ok _ _ _)
  obtain ⟨h1, h2, _, _⟩ := h.1 s hs
  have hf : (List.filter tracked [some (sampleRecord imei 0 0), some (sampleRecord 42 5 5),
      some (sampleRecord imei 0 1)]).length = 2 := by
    decide
  exact ⟨s, hs, by rw [h1, hf], by rw [h2, hf]⟩

/-- C3, as stated, fails: with the zone radius -1 the run on one record of the
tracked entity is not rejected; it ends normally, the record is classified
(outbound) and the counts 0 and 1 are produced. -/
theorem main_negative_radius_not_rejected :
    asInt32 (index (sampleZone (-1)) "radius") = some (-1) ∧
      main sampleVehicle (sampleZone (-1)) [some (sampleRecord imei 0 0)] =
        Except.ok (RunState.mk 0 1 [⟨haversineDistance 0 0 0 0, Classification.outbound⟩]) ∧
      ∀ e, main sampleVehicle (sampleZone (-1)) [some (sampleRecord imei 0 0)] ≠
        Except.error e := by
  have hrun : main sampleVehicle (sampleZone (-1)) [some (sampleRecord imei 0 0)] =
      Except.ok (RunState.mk 0 1 [⟨haversineDistance 0 0 0 0, Classification.outbound⟩]) := by
    refine (main_ok_iff _ _ _ _).mpr ⟨0, 0, -1, rfl, rfl, rfl, ?_⟩
    have hd : ¬ haversineDistance 0 0 0 0 < (((-1 : Int)) : ℝ) := by
      have := haversineDistance_nonneg 0 0 0 0
      push_cast
      linarith
    rw [loop, loopBody_tracked sampleVehicle (sampleZone (-1)) 0 0 (-1) initial
      (sampleRecord imei 0 0) [("latitude", Value.double 0), ("longitude", Value.double 0)]
      0 0 rfl rfl rfl rfl rfl, if_neg hd]
    rfl
  refine ⟨rfl, hrun, fun e he => ?_⟩
  rw [hrun] at he
  cases he

/-- C3, amended: a run whose zone radius is negative is not rejected.  When it
completes, no record has been counted inbound: `inboundCount` is 0,
`outboundCount` is the number of records of the tracked entity, and each of
them has one report, classified outbound.  A run over well-formed documents
does complete. -/
theorem main_negative_radius_all_outbound (vehicle zone : M) (cursor : List (Option M))
    (radius : Int) (hr : asInt32 (index zone "radius") = some radius) (hneg : radius < 0) :
    (∀ s, main vehicle zone cursor = Except.ok s →
        s.inboundCount = 0 ∧ s.outboundCount = (cursor.filter tracked).length ∧
          s.printed.length = (cursor.filter tracked).length ∧
          ∀ r ∈ s.printed, r.classification = Classification.outbound) ∧
      (zoneFields zone = true → labels vehicle zone = true →
        (∀ item ∈ cursor, recordOk item = true) →
          ∃ s, main vehicle zone cursor = Except.ok s) :=
  main_negative_radius vehicle zone cursor radius hr hneg

/-- The amended C3 on a zone of radius -1 and two records of the tracked
entity: the run completes with the counts 0 and 2. -/
theorem main_negative_radius_all_outbound_witness :
    ∃ s, main sampleVehicle (sampleZone (-1))
          [some (sampleRecord imei 0 0), some (sampleRecord imei 0 1)] = Except.ok s ∧
      s.inboundCount = 0 ∧ s.outboundCount = 2 := by
  have h := main_negative_radius_all_outbound sampleVehicle (sampleZone (-1))
    [some (sampleRecord imei 0 0), some (sampleRecord imei 0 1)] (-1) rfl (by decide)
  obtain ⟨s, hs⟩ := h.2 rfl rfl (by
    intro item hi
    simp only [List.mem_cons, List.mem_singleton, List.not_mem_nil, or_false] at hi
    rcases hi with e | e <;> rw [e] <;> exact sampleRecord_ok _ _ _)
  obtain ⟨h1, h2, _, _⟩ := h.1 s hs
  have hf : (List.filter tracked
      [some (sampleRecord imei 0 0), some (sampleRecord imei 0 1)]).length = 2 := by
    decide
  exact ⟨s, hs, h1, by rw [h2, hf]⟩

/-- C10: for every zone and every two cursors that are permutations of each
other, if the run completes on the first it completes on the second, with the
same `inboundCount` and the same `outboundCount`. -/
theorem main_counts_permutation (vehicle zone : M) (cursor1 cursor2 : List (Option M))
    (hperm : cursor1.Perm cursor2) (s1 : RunState)
    (h1 : main vehicle zone cursor1 = Except.ok s1) :
    ∃ s2, main vehicle zone cursor2 = Except.ok s2 ∧
      s2.inboundCount = s1.inboundCount ∧ s2.outboundCount = s1.outboundCount := by
  obtain ⟨zoneLat, zoneLon, radius, e1, e2, e3, hl⟩ := (main_ok_iff _ _ _ _).mp h1
  obtain ⟨s2, h2, hi, ho⟩ :=
    loop_perm vehicle zone zoneLat zoneLon radius cursor1 cursor2 hperm s1 hl
  exact ⟨s2, (main_ok_iff _ _ _ _).mpr ⟨zoneLat, zoneLon, radius, e1, e2, e3, h2⟩, hi, ho⟩

/-- C10 on a zone of radius 500 centred at (0, 0), with one record at the
centre and one a degree of longitude away, in the two orders: both runs end
with `inboundCount = 1` and `outboundCount = 1`. -/
theorem main_counts_permutation_witness :
    main sampleVehicle (sampleZone 500)
        [some (sampleRecord imei 0 0), some (sampleRecord imei 0 1)] =
      Except.ok (RunState.mk 1 1
        [⟨haversineDistance 0 0 0 0, Classification.inbound⟩,
          ⟨haversineDistance 0 1 0 0, Classification.outbound⟩]) ∧
    ∃ s2, main sampleVehicle (sampleZone 500)
          [some (sampleRecord imei 0 1), some (sampleRecord imei 0 0)] = Except.ok s2 ∧
      s2.inboundCount = 1 ∧ s2.outboundCount = 1 := by
  have hin : haversineDistance 0 0 0 0 < ((500 : Int) : ℝ) := by
    rw [haversineDistance_equator 0 0 (by norm_num)]
    norm_num
  have hout : ¬ haversineDistance 0 1 0 0 < ((500 : Int) : ℝ) := by
    rw [haversineDistance_equator 1 0 (by norm_num)]
    have := Real.pi_gt_three
    norm_num
    linarith
  have hrun : main sampleVehicle (sampleZone 500)
      [some (sampleRecord imei 0 0), some (sampleRecord imei 0 1)] =
      Except.ok (RunState.mk 1 1
        [⟨haversineDistance 0 0 0 0, Classification.inbound⟩,
          ⟨haversineDistance 0 1 0 0, Classification.outbound⟩]) := by
    refine (main_ok_iff _ _ _ _).mpr ⟨0, 0, 500, rfl, rfl, rfl, ?_⟩
    rw [loop, loopBody_tracked sampleVehicle (sampleZone 500) 0 0 500 initial
      (sampleRecord imei 0 0) [("latitude", Value.double 0), ("longitude", Value.double 0)]
      0 0 rfl rfl rfl rfl rfl, if_pos hin]
    simp only
    rw [loop, loopBody_tracked sampleVehicle (sampleZone 500) 0 0 500 _
      (sampleRecord imei 0 1) [("latitude", Value.double 0), ("longitude", Value.double 1)]
      0 1 rfl rfl rfl rfl rfl, if_neg hout]
    rfl
  exact ⟨hrun, main_counts_permutation sampleVehicle (sampleZone 500) _ _
    (List.Perm.swap _ _ _) _ hrun⟩

/-! ## The London-Paris fixture -/

/-- Enclosure of the sine of a number known to lie in `[lo, hi] ⊆ [0, 1]`, from
the cubic Taylor polynomial and its remainder. -/
theorem sin_enclosure (x lo hi : ℝ) (h0 : 0 ≤ lo) (hlo : lo ≤ x) (hhi : x ≤ hi)
    (h1 : hi ≤ 1) :
    lo - hi ^ 3 / 6 - hi ^ 4 * (5 / 96) ≤ Real.sin x ∧
      Real.sin x ≤ hi - lo ^ 3 / 6 + hi ^ 4 * (5 / 96) := by
  have hx0 : 0 ≤ x := le_trans h0 hlo
  have habs : |x| = x := abs_of_nonneg hx0
  have hb := Real.sin_bound (x := x) (by rw [habs]; linarith)
  rw [habs, abs_le] at hb
  have p3 : x ^ 3 ≤ hi ^ 3 := pow_le_pow_left₀ hx0 hhi 3
  have q3 : lo ^ 3 ≤ x ^ 3 := pow_le_pow_left₀ h0 hlo 3
  have p4 : x ^ 4 ≤ hi ^ 4 := pow_le_pow_left₀ hx0 hhi 4
  constructor
  · linarith [hb.1]
  · linarith [hb.2]

/-- Enclosure of a cosine from an enclosure of the sine of the half angle. -/
theorem cos_enclosure (x lo hi : ℝ) (h0 : 0 ≤ lo) (hlo : lo ≤ Real.sin (x / 2))
    (hhi : Real.sin (x / 2) ≤ hi) :
    1 - 2 * hi ^ 2 ≤ Real.cos x ∧ Real.cos x ≤ 1 - 2 * lo ^ 2 := by
  have h := Real.cos_two_mul (x / 2)
  have h2 := Real.sin_sq_add_cos_sq (x / 2)
  have e : 2 * (x / 2) = x := by ring
  rw [e] at h
  have p2 : Real.sin (x / 2) ^ 2 ≤ hi ^ 2 := pow_le_pow_left₀ (le_trans h0 hlo) hhi 2
  have q2 : lo ^ 2 ≤ Real.sin (x / 2) ^ 2 := pow_le_pow_left₀ h0 hlo 2
  constructor <;> linarith

/-- The haversine term of the London-Paris fixture, enclosed. -/
theorem fixture_term_enclosure :
    0.000677032 ≤ haversineTerm 51.5007 0.1246 48.8584 2.2945 ∧
      haversineTerm 51.5007 0.1246 48.8584 2.2945 ≤ 0.000680049 := by
  have hpl := Real.pi_gt_d6
  have hph := Real.pi_lt_d6
  rw [haversineTerm_eq]
  have eu : ((48.8584 : ℝ) * (Real.pi / 180) - 51.5007 * (Real.pi / 180)) / 2 =
      -(2.6423 * Real.pi / 360) := by ring
  have ev : ((2.2945 : ℝ) * (Real.pi / 180) - 0.1246 * (Real.pi / 180)) / 2 =
      2.1699 * Real.pi / 360 := by ring
  rw [eu, ev, Real.sin_neg, neg_sq]
  -- the two half differences
  obtain ⟨su1, su2⟩ := sin_enclosure (2.6423 * Real.pi / 360) 0.023058412 0.02305842
    (by norm_num) (by norm_num; linarith) (by norm_num; linarith) (by norm_num)
  obtain ⟨sv1, sv2⟩ := sin_enclosure (2.1699 * Real.pi / 360) 0.018935945 0.018935952
    (by norm_num) (by norm_num; linarith) (by norm_num; linarith) (by norm_num)
  have su_lo : (0.023056353 : ℝ) ≤ Real.sin (2.6423 * Real.pi / 360) :=
    le_trans (by norm_num) su1
  have su_hi : Real.sin (2.6423 * Real.pi / 360) ≤ (0.023056392 : ℝ) :=
    le_trans su2 (by norm_num)
  have sv_lo : (0.018934806 : ℝ) ≤ Real.sin (2.1699 * Real.pi / 360) :=
    le_trans (by norm_num) sv1
  have sv_hi : Real.sin (2.1699 * Real.pi / 360) ≤ (0.018934828 : ℝ) :=
    le_trans sv2 (by norm_num)
  -- the two latitudes, through their halves
  obtain ⟨sp1, sp2⟩ := sin_enclosure (51.5007 * (Real.pi / 180) / 2) 0.449428297 0.449428441
    (by norm_num) (by norm_num; linarith) (by norm_num; linarith) (by norm_num)
  obtain ⟨sq1, sq2⟩ := sin_enclosure (48.8584 * (Real.pi / 180) / 2) 0.426369884 0.426370021
    (by norm_num) (by norm_num; linarith) (by norm_num; linarith) (by norm_num)
  obtain ⟨cp1, cp2⟩ := cos_enclosure (51.5007 * (Real.pi / 180)) 0.432173 0.436424
    (by norm_num) (le_trans (by norm_num) sp1) (le_trans sp2 (by norm_num))
  obtain ⟨cq1, cq2⟩ := cos_enclosure (48.8584 * (Real.pi / 180)) 0.41173 0.415173
    (by norm_num) (le_trans (by norm_num) sq1) (le_trans sq2 (by norm_num))
  have cp_lo : (0.619068 : ℝ) ≤ Real.cos (51.5007 * (Real.pi / 180)) :=
    le_trans (by norm_num) cp1
  have cp_hi : Real.cos (51.5007 * (Real.pi / 180)) ≤ (0.626453 : ℝ) :=
    le_trans cp2 (by norm_num)
  have cq_lo : (0.655262 : ℝ) ≤ Real.cos (48.8584 * (Real.pi / 180)) :=
    le_trans (by norm_num) cq1
  have cq_hi : Real.cos (48.8584 * (Real.pi / 180)) ≤ (0.660957 : ℝ) :=
    le_trans cq2 (by norm_num)
  -- squares and products
  have u2_lo : (0.023056353 : ℝ) ^ 2 ≤ Real.sin (2.6423 * Real.pi / 360) ^ 2 :=
    pow_le_pow_left₀ (by norm_num) su_lo 2
  have u2_hi : Real.sin (2.6423 * Real.pi / 360) ^ 2 ≤ (0.023056392 : ℝ) ^ 2 :=
    pow_le_pow_left₀ (le_trans (by norm_num) su_lo) su_hi 2
  have v2_lo : (0.018934806 : ℝ) ^ 2 ≤ Real.sin (2.1699 * Real.pi / 360) ^ 2 :=
    pow_le_pow_left₀ (by norm_num) sv_lo 2
  have v2_hi : Real.sin (2.1699 * Real.pi / 360) ^ 2 ≤ (0.018934828 : ℝ) ^ 2 :=
    pow_le_pow_left₀ (le_trans (by norm_num) sv_lo) sv_hi 2
  have hcp0 : (0 : ℝ) ≤ Real.cos (51.5007 * (Real.pi / 180)) := le_trans (by norm_num) cp_lo
  have hcq0 : (0 : ℝ) ≤ Real.cos (48.8584 * (Real.pi / 180)) := le_trans (by norm_num) cq_lo
  have cc_lo : (0.619068 : ℝ) * 0.655262 ≤
      Real.cos (51.5007 * (Real.pi / 180)) * Real.cos (48.8584 * (Real.pi / 180)) :=
    mul_le_mul cp_lo cq_lo (by norm_num) hcp0
  have cc_hi : Real.cos (51.5007 * (Real.pi / 180)) * Real.cos (48.8584 * (Real.pi / 180)) ≤
      (0.626453 : ℝ) * 0.660957 :=
    mul_le_mul cp_hi cq_hi hcq0 (by norm_num)
  have t_lo : (0.619068 : ℝ) * 0.655262 * 0.018934806 ^ 2 ≤
      Real.cos (51.5007 * (Real.pi / 180)) * Real.cos (48.8584 * (Real.pi / 180)) *
        Real.sin (2.1699 * Real.pi / 360) ^ 2 :=
    mul_le_mul cc_lo v2_lo (by norm_num) (mul_nonneg hcp0 hcq0)
  have t_hi : Real.cos (51.5007 * (Real.pi / 180)) * Real.cos (48.8584 * (Real.pi / 180)) *
        Real.sin (2.1699 * Real.pi / 360) ^ 2 ≤
      (0.626453 : ℝ) * 0.660957 * 0.018934828 ^ 2 :=
    mul_le_mul cc_hi v2_hi (sq_nonneg _) (by norm_num)
  constructor
  · have : (0.000677032 : ℝ) ≤ 0.023056353 ^ 2 + 0.619068 * 0.655262 * 0.018934806 ^ 2 := by
      norm_num
    exact le_trans this (add_le_add u2_lo t_lo)
  · have : (0.023056392 : ℝ) ^ 2 + 0.626453 * 0.660957 * 0.018934828 ^ 2 ≤ 0.000680049 := by
      norm_num
    exact le_trans (add_le_add u2_hi t_hi) this

/-- The London-Paris fixture, enclosed: about 332 km. -/
theorem fixture_distance_enclosure :
    331000 ≤ haversineDistance 51.5007 0.1246 48.8584 2.2945 ∧
      haversineDistance 51.5007 0.1246 48.8584 2.2945 ≤ 333000 := by
  obtain ⟨ha1, ha2⟩ := fixture_term_enclosure
  have hpi := Real.pi_gt_three
  rw [haversineDistance_eq]
  set a := haversineTerm 51.5007 0.1246 48.8584 2.2945
  have hs0 : 0 ≤ Real.sqrt a := Real.sqrt_nonneg a
  have hs1 : Real.sqrt a ≤ 1 :=
    Real.sqrt_le_iff.mpr ⟨by norm_num, by linarith⟩
  constructor
  · -- L = 331000 / (2 R)
    have hL : (331 / 12742 : ℝ) ≤ Real.arcsin (Real.sqrt a) := by
      rw [Real.le_arcsin_iff_sin_le ⟨by linarith, by linarith⟩ ⟨by linarith, hs1⟩]
      have h1 : Real.sin (331 / 12742 : ℝ) ≤ 331 / 12742 := Real.sin_le (by norm_num)
      have h2 : (331 / 12742 : ℝ) ≤ Real.sqrt a := by
        apply Real.le_sqrt_of_sq_le
        have : (331 / 12742 : ℝ) ^ 2 ≤ 0.000677032 := by norm_num
        linarith
      linarith
    linarith
  · -- H = 333000 / (2 R)
    have hH : Real.arcsin (Real.sqrt a) ≤ (333 / 12742 : ℝ) := by
      rw [Real.arcsin_le_iff_le_sin ⟨by linarith, hs1⟩ ⟨by linarith, by linarith⟩]
      have h1 : (333 / 12742 : ℝ) - (333 / 12742) ^ 3 / 4 < Real.sin (333 / 12742 : ℝ) :=
        Real.sin_gt_sub_cube (by norm_num) (by norm_num)
      have h2 : Real.sqrt a ≤ (333 / 12742 : ℝ) - (333 / 12742) ^ 3 / 4 := by
        apply Real.sqrt_le_iff.mpr
        refine ⟨by norm_num, ?_⟩
        have : (0.000680049 : ℝ) ≤ ((333 / 12742 : ℝ) - (333 / 12742) ^ 3 / 4) ^ 2 := by
          norm_num
        linarith
      linarith
    linarith

/-- C8, as stated, fails: the distance between (51.5007, 0.1246) and
(48.8584, 2.2945) is not in [342000, 344000]; it is below 333000. -/
theorem fixture_distance_not_343km :
    ¬ (342000 ≤ haversineDistance 51.5007 0.1246 48.8584 2.2945 ∧
        haversineDistance 51.5007 0.1246 48.8584 2.2945 ≤ 344000) := by
  rintro ⟨h, _⟩
  have := fixture_distance_enclosure.2
  linarith

/-- C8, amended: the distance between (51.5007, 0.1246) and (48.8584, 2.2945)
is within 1000 meters of 332,000 meters: it lies in [331000, 333000]. -/
theorem fixture_distance_332km :
    331000 ≤ haversineDistance 51.5007 0.1246 48.8584 2.2945 ∧
      haversineDistance 51.5007 0.1246 48.8584 2.2945 ≤ 333000 :=
  fixture_distance_enclosure

/-! ## The binary64 reading: the arithmetic on known values -/

set_option exponentiation.threshold 10000
set_option maxRecDepth 100000

/-- The constants of `math/sin.go` and the two constant expressions
`math.Pi / 180` and `4 / Pi` have the bit patterns that the Go sources give in
their comments. -/
theorem constants_bits :
    F64.bits sinCoeff0 = 0x3de5d8fd1fd19ccd ∧ F64.bits sinCoeff1 = 0xbe5ae5e5a9291f5d ∧
      F64.bits sinCoeff2 = 0x3ec71de3567d48a1 ∧ F64.bits sinCoeff3 = 0xbf2a01a019bfdf03 ∧
      F64.bits sinCoeff4 = 0x3f8111111110f7d0 ∧ F64.bits sinCoeff5 = 0xbfc5555555555548 ∧
      F64.bits cosCoeff0 = 0xbda8fa49a0861a9b ∧ F64.bits cosCoeff1 = 0x3e21ee9d7b4e3f05 ∧
      F64.bits cosCoeff2 = 0xbe927e4f7eac4bc6 ∧ F64.bits cosCoeff3 = 0x3efa01a019c844f5 ∧
      F64.bits cosCoeff4 = 0xbf56c16c16c14f91 ∧ F64.bits cosCoeff5 = 0x3fa555555555554b ∧
      F64.bits PI4A = 0x3fe921fb40000000 ∧ F64.bits PI4B = 0x3e64442d00000000 ∧
      F64.bits PI4C = 0x3ce8469898cc5170 ∧
      F64.bits (F64.lit false piNum (piDen * 180)) = 0x3f91df46a2529d39 ∧
      F64.bits (F64.lit false (4 * piDen) piNum) = 0x3ff45f306dc9c883 :=
  ⟨rfl, rfl, rfl, rfl, rfl, rfl, rfl, rfl, rfl, rfl, rfl, rfl, rfl, rfl, rfl, rfl, rfl⟩

/-- The arithmetic on well-known values: `0.1 + 0.2` is `0.30000000000000004`,
the square root of 2, half the least subnormal number rounds to zero, twice
the largest finite number is infinite, `x - x` is `+0`, and `math.Sin(0.5)`. -/
theorem arithmetic_known_values (K : Kernels) :
    F64.bits (F64.add (F64.lit false 1 10) (F64.lit false 2 10)) = 0x3fd3333333333334 ∧
      F64.bits (F64.sqrt (F64.ofNat 2)) = 0x3ff6a09e667f3bcd ∧
      F64.mul (F64.fin false 1 0) (F64.lit false 1 2) = F64.fin false 0 0 ∧
      F64.mul (F64.fin false (2 ^ 53 - 1) 2045) (F64.ofNat 2) = F64.inf false ∧
      F64.sub (F64.lit true 84 1) (F64.lit true 84 1) = F64.fin false 0 0 ∧
      F64.bits (mathSin K (F64.lit false 1 2)) = 0x3fdeaee8744b05f0 :=
  ⟨rfl, rfl, rfl, rfl, rfl, rfl⟩

/-! ## The binary64 reading: the distance engine at concrete inputs -/

/-- The binary64 reading on ordinary inputs: the haversine terms of the pairs
(51.5007, 0.1246), (48.8584, 2.2945) and (0, 0), (0, 1), about `6.78e-4` and
`7.6e-5`. -/
theorem haversineTerm64_fixtures (K : Kernels) :
    F64.bits (haversineTerm64 K (F64.lit false 515007 10000) (F64.lit false 1246 10000)
        (F64.lit false 488584 10000) (F64.lit false 22945 10000)) = 0x3f463b1faa615979 ∧
      F64.bits (haversineTerm64 K (F64.ofNat 0) (F64.ofNat 0) (F64.ofNat 0) (F64.ofNat 1)) =
        0x3f13f680a5076462 :=
  ⟨rfl, rfl⟩

/-- The code, in the binary64 reading, on two distinct points of the equator
closer than the arithmetic resolves: the distance between (0, 0) and
(0, 2⁻⁶⁰⁰) is `+0`, because the square of the sine underflows. -/
theorem haversineDistance64_underflow (K : Kernels) :
    haversineDistance64 K (F64.ofNat 0) (F64.ofNat 0) (F64.ofNat 0)
      (F64.lit false 1 (2 ^ 600)) = F64.fin false 0 0 := by
  rfl

/-- The code, in the binary64 reading, at the poles: the distance between
(90, 0) and (90, 2⁻⁵⁰⁰) is `+0`.  The cosines are about `6.1e-17` and the sine
of the half difference about `2.7e-153`; their product underflows. -/
theorem haversineDistance64_pole (K : Kernels) :
    haversineDistance64 K (F64.ofNat 90) (F64.ofNat 0) (F64.ofNat 90)
      (F64.lit false 1 (2 ^ 500)) = F64.fin false 0 0 := by
  rfl

/-- C5, as stated, fails: the points (90, 0) and (90, 2⁻⁵⁰⁰) are both in range
and differ in longitude, yet their distance is zero.  This holds in both
readings: in the real one because the cosine of the latitude vanishes at the
pole, in the binary64 one because the product underflows to `+0`. -/
theorem haversineDistance_zero_not_identical :
    (-90 : ℝ) ≤ 90 ∧ (90 : ℝ) ≤ 90 ∧ (-180 : ℝ) ≤ 0 ∧ (0 : ℝ) ≤ 180 ∧
      (-180 : ℝ) ≤ 1 / 2 ^ 500 ∧ (1 : ℝ) / 2 ^ 500 ≤ 180 ∧
      ¬ (haversineDistance 90 0 90 (1 / 2 ^ 500) = 0 ↔
          ((90 : ℝ) = 90 ∧ (0 : ℝ) = 1 / 2 ^ 500)) ∧
      (∀ K : Kernels,
        haversineDistance64 K (F64.ofNat 90) (F64.ofNat 0) (F64.ofNat 90)
          (F64.lit false 1 (2 ^ 500)) = F64.fin false 0 0) ∧
      F64.ofNat 0 ≠ F64.lit false 1 (2 ^ 500) := by
  have hsmall : (0 : ℝ) < 1 / 2 ^ 500 := by positivity
  have hle : (1 : ℝ) / 2 ^ 500 ≤ 1 :=
    (div_le_one (by positivity)).mpr (one_le_pow₀ (by norm_num))
  refine ⟨by norm_num, le_refl _, by norm_num, by norm_num, by linarith, by linarith, ?_,
    haversineDistance64_pole, ?_⟩
  · intro h
    have hz : haversineDistance 90 0 90 (1 / 2 ^ 500) = 0 := by
      rw [haversineDistance_eq_zero_iff, haversineTerm_eq]
      have e1 : (90:ℝ) * (Real.pi / 180) = Real.pi / 2 := by ring
      rw [e1, Real.cos_pi_div_two]
      simp
    have := (h.mp hz).2
    linarith
  · have e : F64.lit false 1 (2 ^ 500) = F64.fin false (2 ^ 52) 522 := by rfl
    rw [e]
    decide

/-- In the binary64 reading `x - x` is `+0` for a finite `x`. -/
theorem F64.sub_self_fin (s : Bool) (m e : Nat) :
    F64.sub (F64.fin s m e) (F64.fin s m e) = F64.fin false 0 0 := by
  cases s <;> simp [F64.sub, F64.neg, F64.add]

/-- In the binary64 reading a finite number times `+0` is a zero. -/
theorem F64.mul_zero_fin (t : Bool) (p q : Nat) :
    F64.mul (F64.fin t p q) (F64.fin false 0 0) = F64.fin t 0 0 := by
  cases t <;> simp [F64.mul, F64.roundQ]

/-- In the binary64 reading `+0` plus a zero of either sign is `+0`. -/
theorem F64.add_zero_zero (t : Bool) :
    F64.add (F64.fin false 0 0) (F64.fin t 0 0) = F64.fin false 0 0 := by
  cases t <;> simp [F64.add, F64.roundQ]

/-- The code, in the binary64 reading, on two identical points: both
differences are `x - x = +0`, the sines of zero are zero, and the product with
the squared cosine is a zero as long as this square is finite; then `a = +0`
and the distance is `R * (2 * Atan2(0, 1)) = +0`. -/
theorem haversineDistance64_self_zero (K : Kernels) (lat lon : F64)
    (hlat : F64.isFinite (F64.mul lat (F64.lit false piNum (piDen * 180))) = true)
    (hlon : F64.isFinite (F64.mul lon (F64.lit false piNum (piDen * 180))) = true)
    (hcos : F64.isFinite (F64.mul
      (mathCos K (F64.mul lat (F64.lit false piNum (piDen * 180))))
      (mathCos K (F64.mul lat (F64.lit false piNum (piDen * 180))))) = true) :
    haversineDistance64 K lat lon lat lon = F64.fin false 0 0 := by
  have hdiv : F64.div (F64.fin false 0 0) (F64.ofNat 2) = F64.fin false 0 0 := by rfl
  have hsin : mathSin K (F64.fin false 0 0) = F64.fin false 0 0 := by rfl
  have hzz : F64.mul (F64.fin false 0 0) (F64.fin false 0 0) = F64.fin false 0 0 := by rfl
  have hterm : haversineTerm64 K lat lon lat lon = F64.fin false 0 0 := by
    unfold haversineTerm64
    simp only
    generalize F64.mul lat (F64.lit false piNum (piDen * 180)) = L at hlat hcos ⊢
    generalize F64.mul lon (F64.lit false piNum (piDen * 180)) = O at hlon ⊢
    cases L with
    | nan => simp [F64.isFinite] at hlat
    | inf s => simp [F64.isFinite] at hlat
    | fin s m e =>
      cases O with
      | nan => simp [F64.isFinite] at hlon
      | inf s => simp [F64.isFinite] at hlon
      | fin s1 m1 e1 =>
        rw [F64.sub_self_fin, F64.sub_self_fin, hdiv, hsin, hzz]
        generalize F64.mul (mathCos K (F64.fin s m e)) (mathCos K (F64.fin s m e)) = X
          at hcos ⊢
        cases X with
        | nan => simp [F64.isFinite] at hcos
        | inf s => simp [F64.isFinite] at hcos
        | fin t p q =>
          rw [F64.mul_zero_fin, F64.mul_zero_fin, F64.add_zero_zero]
  unfold haversineDistance64
  simp only
  rw [hterm]
  rfl

/-- C5, amended: the distance between two identical points is zero (the
converse is dropped).  In the real reading this holds for every latitude and
longitude.  In the binary64 reading it holds for every point whose
coordinates in radians are finite and whose squared cosine of the latitude is
finite (no NaN, no overflow), and the distance is then `+0`. -/
theorem haversineDistance_self_eq_zero :
    (∀ lat lon : ℝ, haversineDistance lat lon lat lon = 0) ∧
      (∀ (K : Kernels) (lat lon : F64),
        F64.isFinite (F64.mul lat (F64.lit false piNum (piDen * 180))) = true →
        F64.isFinite (F64.mul lon (F64.lit false piNum (piDen * 180))) = true →
        F64.isFinite (F64.mul
          (mathCos K (F64.mul lat (F64.lit false piNum (piDen * 180))))
          (mathCos K (F64.mul lat (F64.lit false piNum (piDen * 180))))) = true →
        haversineDistance64 K lat lon lat lon = F64.fin false 0 0) := by
  refine ⟨fun lat lon => ?_, haversineDistance64_self_zero⟩
  rw [haversineDistance_eq_zero_iff, haversineTerm_eq]
  simp

/-- The amended C5 at the point (12.9716, 77.5946): its distance from itself is
zero in the real reading and `+0` in the binary64 reading. -/
theorem haversineDistance_self_eq_zero_witness :
    haversineDistance 12.9716 77.5946 12.9716 77.5946 = 0 ∧
      ∀ K : Kernels,
        haversineDistance64 K (F64.lit false 129716 10000) (F64.lit false 775946 10000)
          (F64.lit false 129716 10000) (F64.lit false 775946 10000) = F64.fin false 0 0 :=
  ⟨haversineDistance_self_eq_zero.1 12.9716 77.5946,
    fun K => haversineDistance_self_eq_zero.2 K (F64.lit false 129716 10000)
      (F64.lit false 775946 10000) rfl rfl rfl⟩

/-- C6: the code at the in-range input (-84, -180), (84, 0), in the binary64
reading, returns NaN, which is not a non-negative number: the comparison
`0 <= distance` is false. -/
theorem haversineDistance64_antipodal_nan (K : Kernels) :
    haversineDistance64 K (F64.lit true 84 1) (F64.lit true 180 1) (F64.ofNat 84)
        (F64.ofNat 0) = F64.nan ∧
      F64.le (F64.ofNat 0)
        (haversineDistance64 K (F64.lit true 84 1) (F64.lit true 180 1) (F64.ofNat 84)
          (F64.ofNat 0)) = false :=
  ⟨rfl, rfl⟩

/-- C7: the code, in the binary64 reading, computes a haversine term outside
`[0, 1]`.  At the in-range input (-88.5, -180), (88.5, 0) it is `1 + 2⁻⁵²`, so
`1 < a`, `1 - a` is negative and `math.Sqrt(1 - a)` is NaN; at the input
(117, 0), (63, 180), with a latitude out of range, it is `-2⁻⁵⁵`, so `a < 0`
and `math.Sqrt(a)` is NaN. -/
theorem haversineTerm64_outside_unit_interval (K : Kernels) :
    F64.bits (haversineTerm64 K (F64.lit true 885 10) (F64.lit true 180 1)
        (F64.lit false 885 10) (F64.ofNat 0)) = 0x3ff0000000000001 ∧
      F64.lt (F64.ofNat 1) (haversineTerm64 K (F64.lit true 885 10) (F64.lit true 180 1)
        (F64.lit false 885 10) (F64.ofNat 0)) = true ∧
      F64.lt (F64.sub (F64.ofNat 1) (haversineTerm64 K (F64.lit true 885 10)
        (F64.lit true 180 1) (F64.lit false 885 10) (F64.ofNat 0))) (F64.ofNat 0) = true ∧
      F64.sqrt (F64.sub (F64.ofNat 1) (haversineTerm64 K (F64.lit true 885 10)
        (F64.lit true 180 1) (F64.lit false 885 10) (F64.ofNat 0))) = F64.nan ∧
      F64.bits (haversineTerm64 K (F64.ofNat 117) (F64.ofNat 0) (F64.ofNat 63)
        (F64.ofNat 180)) = 0xbc80000000000000 ∧
      F64.lt (haversineTerm64 K (F64.ofNat 117) (F64.ofNat 0) (F64.ofNat 63)
        (F64.ofNat 180)) (F64.ofNat 0) = true ∧
      F64.sqrt (haversineTerm64 K (F64.ofNat 117) (F64.ofNat 0) (F64.ofNat 63)
        (F64.ofNat 180)) = F64.nan :=
  ⟨rfl, rfl, rfl, rfl, rfl, rfl, rfl⟩

end Bound
